import Mathlib

/-!
Verification development for the NEXIS voice-assistant core.

The Python sources are embedded shallowly:
* `brain/processor.py` — intent routing (`Brain.process`) and its handlers;
* `memory/storage.py`  — the reminder/memory store (`MemoryStore`) and the
  background polling scheduler (`ReminderThread`).

Conventions of the embedding:
* Python strings are modelled as `List Char` (ASCII inputs; `re`'s word
  characters `\w` are modelled as ASCII alphanumerics plus underscore).
* The regular expressions of `processor.py` are translated into explicit
  scanning functions with the exact leftmost-match / backtracking behaviour
  of the corresponding pattern.
* External collaborators (app controller, knowledge lookup, `random.choice`,
  the wall clock, and CPython's sandboxed `eval`) are fields of an `Env`
  record; every one of them totally returns a string, mirroring the
  try/except boundaries in `apps.py` and `knowledge.py`.  `eval` is the one
  collaborator that may fail: it is modelled as `String → Option String`
  (`none` = the exception swallowed by `_try_calculate`'s `except`).
* `datetime.datetime` values are 7-tuples of naturals; `ValueError` raised
  by `datetime.replace` / `fromisoformat` is modelled with `Except`.
-/

/-- Whitespace as matched by Python's `\s` on ASCII text. -/
def pyIsSpace (c : Char) : Bool :=
  c = ' ' || c = '\t' || c = '\n' || c = '\r' || c = '\x0b' || c = '\x0c'

/-- Word characters for the regex `\b` boundary (`\w` restricted to ASCII). -/
def isWordChar (c : Char) : Bool :=
  c.isAlpha || c.isDigit || c = '_'

/-- Numeric value of an ASCII digit character. -/
def dval (c : Char) : Nat :=
  c.toNat - 48

/-- Case-insensitive test that `p` (given lower-case) begins the text `l`,
matching the `re.IGNORECASE` flag used by every pattern in `processor.py`. -/
def ciStarts : List Char → List Char → Bool
  | [], _ => true
  | _ :: _, [] => false
  | p :: ps, c :: cs => p = c.toLower && ciStarts ps cs

/-- Case-sensitive prefix test, for Python's `in` substring operator. -/
def exStarts : List Char → List Char → Bool
  | [], _ => true
  | _ :: _, [] => false
  | p :: ps, c :: cs => p = c && exStarts ps cs

/-- Python's `needle in hay` substring containment (case-sensitive). -/
def containsSub (p : List Char) : List Char → Bool
  | [] => exStarts p []
  | c :: rest => exStarts p (c :: rest) || containsSub p rest

/-- Left word-boundary check: `prev` is the character preceding the current
position (`none` at the start of the string). -/
def bdryL : Option Char → Bool
  | none => true
  | some c => !isWordChar c

/-- Right word-boundary check at the start of `l`. -/
def bdryR : List Char → Bool
  | [] => true
  | c :: _ => !isWordChar c

/-- One alternative of a `\b(p1|p2|...)\b` pattern matches at the current
position: the phrase matches case-insensitively and both ends fall on word
boundaries (every phrase of `processor.py` begins and ends in a word
character, so the boundary tests reduce to the neighbours). -/
def phraseAt (p : List Char) (prev : Option Char) (l : List Char) : Bool :=
  bdryL prev && ciStarts p l && bdryR (l.drop p.length)

/-- Scan for a word-bounded occurrence of any of `ps`, as `re.search` does
for an alternation `\b(p1|...|pn)\b`. -/
def wordSearchAux (ps : List (List Char)) (prev : Option Char) : List Char → Bool
  | [] => false
  | c :: rest => ps.any (fun p => phraseAt p prev (c :: rest)) || wordSearchAux ps (some c) rest

/-- Boolean match of an alternation pattern `\b(p1|...|pn)\b` against `l`. -/
def wordSearch (ps : List String) (l : List Char) : Bool :=
  wordSearchAux (ps.map String.toList) none l

/-- Python's `str.strip()` on the character list. -/
def pyStrip (l : List Char) : List Char :=
  ((l.dropWhile pyIsSpace).reverse.dropWhile pyIsSpace).reverse

/-- Python's `str.lower()` (ASCII). -/
def pyLower (l : List Char) : List Char :=
  l.map Char.toLower

/-- The normalisation `text.strip().lower()` performed at the top of
`Brain.process`. -/
def pyNorm (l : List Char) : List Char :=
  pyLower (pyStrip l)

/-- String form of `pyStrip`, used where the Python code stores or echoes a
stripped fragment. -/
def pyStripStr (s : String) : String :=
  String.mk (pyStrip s.toList)

/-- Number of leading whitespace characters (the greedy extent of `\s+`). -/
def leadWs (l : List Char) : Nat :=
  (l.takeWhile pyIsSpace).length

/-! ### Intent patterns of `processor.py`

Each `_RE[...]` pattern is an alternation of word-bounded phrases, except
`open_folder`, `sleep_pc`, `remind` and `remember`, which are modelled
separately below.  Nested groups such as `what('s| is) (today|the date)` and
`lock (the )?screen` are expanded into their finite phrase lists. -/

/-- Phrases of `GREETING_PATTERNS`. -/
def greetingSearch (l : List Char) : Bool :=
  wordSearch ["hi", "hello", "hey", "yo", "what's up", "sup", "howdy", "hiya",
    "good morning", "good afternoon", "good evening", "good night"] l

/-- Phrases of `FAREWELL_PATTERNS`. -/
def farewellSearch (l : List Char) : Bool :=
  wordSearch ["bye", "goodbye", "exit", "quit", "see you", "later", "cya",
    "peace out", "shut down"] l

/-- Phrases of `HOW_ARE_YOU_PATTERNS`. -/
def howAreYouSearch (l : List Char) : Bool :=
  wordSearch ["how are you", "how're you", "how do you feel", "are you okay",
    "you good"] l

/-- The `time` intent pattern. -/
def timeSearch (l : List Char) : Bool :=
  wordSearch ["what time", "current time", "what's the time", "tell me the time"] l

/-- The `date` intent pattern, with the inner group `what('s| is)
(today|the date)` expanded. -/
def dateSearch (l : List Char) : Bool :=
  wordSearch ["what's today", "what's the date", "what is today",
    "what is the date", "today's date", "current date"] l

/-- The `day` intent pattern. -/
def daySearch (l : List Char) : Bool :=
  wordSearch ["what day", "which day"] l

/-- The `open_app` intent pattern. -/
def openAppSearch (l : List Char) : Bool :=
  wordSearch ["open", "launch", "start", "run"] l

/-- The `close_app` intent pattern. -/
def closeAppSearch (l : List Char) : Bool :=
  wordSearch ["close", "kill", "stop", "quit", "exit"] l

/-- The `joke` intent pattern. -/
def jokeSearch (l : List Char) : Bool :=
  wordSearch ["joke", "make me laugh", "something funny", "tell me a joke"] l

/-- The `what_is` intent pattern. -/
def whatIsSearch (l : List Char) : Bool :=
  wordSearch ["what is", "what are", "who is", "who was", "tell me about",
    "explain", "define", "describe"] l

/-- The `search` intent pattern. -/
def searchSearch (l : List Char) : Bool :=
  wordSearch ["search for", "look up", "find", "google", "search"] l

/-- The `weather` intent pattern. -/
def weatherSearch (l : List Char) : Bool :=
  wordSearch ["weather", "temperature", "forecast", "rain", "sunny"] l

/-- The `news` intent pattern. -/
def newsSearch (l : List Char) : Bool :=
  wordSearch ["news", "latest", "today's news", "headlines"] l

/-- The `volume_up` intent pattern. -/
def volumeUpSearch (l : List Char) : Bool :=
  wordSearch ["volume up", "louder", "increase volume"] l

/-- The `volume_down` intent pattern. -/
def volumeDownSearch (l : List Char) : Bool :=
  wordSearch ["volume down", "quieter", "lower volume", "decrease volume"] l

/-- The `mute` intent pattern. -/
def muteSearch (l : List Char) : Bool :=
  wordSearch ["mute", "silence"] l

/-- The `screenshot` intent pattern. -/
def screenshotSearch (l : List Char) : Bool :=
  wordSearch ["screenshot", "screen capture", "capture screen"] l

/-- The `lock` intent pattern, `lock (the )?screen` expanded. -/
def lockSearch (l : List Char) : Bool :=
  wordSearch ["lock the screen", "lock screen", "lock pc", "lock computer"] l

/-- The `shutdown` intent pattern, `turn off (the )?pc` expanded. -/
def shutdownSearch (l : List Char) : Bool :=
  wordSearch ["shutdown", "shut down", "power off", "turn off the pc",
    "turn off pc"] l

/-- The `sleep_pc` pattern `\b(sleep|hibernate|put to sleep)\b.*(pc|computer|system)?\b`:
because the trailing group is optional and `.*` may be empty, the suffix
`.*(...)?\b` always succeeds exactly where the verb's own right boundary
already held, so the pattern is equivalent to its word-bounded verb
alternation. -/
def sleepPcSearch (l : List Char) : Bool :=
  wordSearch ["sleep", "hibernate", "put to sleep"] l

/-- The `list_reminders` intent pattern. -/
def listRemindersSearch (l : List Char) : Bool :=
  wordSearch ["list reminders", "show reminders", "my reminders",
    "pending reminders"] l

/-- The `recall` intent pattern. -/
def recallSearch (l : List Char) : Bool :=
  wordSearch ["what do you remember", "recall", "show memories", "my notes"] l

/-- The `clear_memory` intent pattern. -/
def clearMemorySearch (l : List Char) : Bool :=
  wordSearch ["clear memory", "forget everything", "delete memories"] l

/-- A folder keyword of the `open_folder` pattern matches at the head of `l`
with its trailing word boundary (the second group of the pattern has no
leading `\b`). -/
def kwAt (k : List Char) (l : List Char) : Bool :=
  ciStarts k l && bdryR (l.drop k.length)

/-- Search for a folder keyword reachable from the current position through
`.*`, which cannot cross a newline. -/
def kwWithinLine (ks : List (List Char)) : List Char → Bool
  | [] => false
  | c :: rest => ks.any (fun k => kwAt k (c :: rest)) || (c != '\n' && kwWithinLine ks rest)

/-- Keywords of the second group of the `open_folder` pattern. -/
def folderKws : List (List Char) :=
  (["folder", "directory", "downloads", "documents", "desktop", "pictures",
    "music", "videos"].map String.toList)

/-- Verbs of the first group of the `open_folder` pattern. -/
def folderVerbs : List (List Char) :=
  (["open", "show", "go to"].map String.toList)

/-- Scan for `\b(open|show|go to)\b.*(folder|...|videos)\b`: a word-bounded
verb followed, on the same line, by a keyword with a right word boundary. -/
def openFolderAux (prev : Option Char) : List Char → Bool
  | [] => false
  | c :: rest =>
      folderVerbs.any (fun v =>
        phraseAt v prev (c :: rest) && kwWithinLine folderKws ((c :: rest).drop v.length))
      || openFolderAux (some c) rest

/-- Boolean match of the `open_folder` intent pattern. -/
def openFolderSearch (l : List Char) : Bool :=
  openFolderAux none l

/-- Match of `\bremind\s+me\b` at the current position (`\s+` is greedy and
deterministic here because whitespace cannot begin `me`). -/
def remindAt (prev : Option Char) (l : List Char) : Bool :=
  bdryL prev && ciStarts "remind".toList l &&
  (let r := l.drop 6
   let n := leadWs r
   decide (1 ≤ n) && ciStarts "me".toList (r.drop n) && bdryR ((r.drop n).drop 2))

/-- Scan for `\bremind\s+me\b` (the `remind` intent pattern). -/
def remindSearchAux (prev : Option Char) : List Char → Bool
  | [] => false
  | c :: rest => remindAt prev (c :: rest) || remindSearchAux (some c) rest

/-- Boolean match of the `remind` intent pattern. -/
def remindSearch (l : List Char) : Bool :=
  remindSearchAux none l

/-- Match of `\bremember\s+(that\s+)?(.*)` at the current position: since
both groups can be empty, the pattern matches exactly when the word-bounded
literal `remember` is followed by at least one whitespace character. -/
def rememberAt (prev : Option Char) (l : List Char) : Bool :=
  bdryL prev && ciStarts "remember".toList l && decide (1 ≤ leadWs (l.drop 8))

/-- Scan for the `remember` intent pattern. -/
def rememberSearchAux (prev : Option Char) : List Char → Bool
  | [] => false
  | c :: rest => rememberAt prev (c :: rest) || rememberSearchAux (some c) rest

/-- Boolean match of the `remember` intent pattern. -/
def rememberSearch (l : List Char) : Bool :=
  rememberSearchAux none l

/-! ### The reminder-parsing patterns of `Brain._handle_remind`

`task_match` uses `remind\s+me\s+to\s+(.+?)(?:\s+at\s+[\d:]+|\s*$)` and
`time_pattern` uses `at\s+(\d{1,2})(?::(\d{2}))?\s*(am|pm)?`, both under
`re.search` with `re.IGNORECASE`.  The lazy group and the final `\s+` of the
task prefix genuinely backtrack, so they are modelled with explicit loops in
the engine's attempt order. -/

/-- The meridiem capture of `time_pattern`. -/
inductive Meridiem where
  | am
  | pm
deriving DecidableEq, Repr

/-- First tail alternative `\s+at\s+[\d:]+` of `task_match`, anchored at the
head of `l` (deterministic: each `\s+` is followed by a non-space literal,
and nothing follows the final character class). -/
def tailAlt1 (l : List Char) : Bool :=
  let n := leadWs l
  decide (1 ≤ n) &&
  (let r := l.drop n
   ciStarts "at".toList r &&
   (let r2 := r.drop 2
    let n2 := leadWs r2
    decide (1 ≤ n2) &&
    (match r2.drop n2 with
     | c :: _ => c.isDigit || c = ':'
     | [] => false)))

/-- Second tail alternative `\s*$`: the remaining text is all whitespace
(`$` also matches just before a trailing newline, which `\s*` covers). -/
def tailAlt2 (l : List Char) : Bool :=
  l.all pyIsSpace

/-- Either tail alternative of `task_match`, tried in the pattern's order. -/
def taskTailOk (l : List Char) : Bool :=
  tailAlt1 l || tailAlt2 l

/-- Lazy expansion of the group `(.+?)`: starting from the shortest
non-empty prefix of dot-matching characters, return the first prefix whose
remainder satisfies a tail alternative. -/
def taskScanK (grp : List Char) : List Char → Option (List Char)
  | [] => none
  | c :: rest =>
      if c = '\n' then none
      else if taskTailOk rest then some (grp ++ [c])
      else taskScanK (grp ++ [c]) rest

/-- Backtracking over the final `\s+` of the task prefix: the engine first
gives the group the text after all leading whitespace, then returns
whitespace characters to the group one at a time. -/
def taskWsLoop (rest0 : List Char) : Nat → Option (List Char)
  | 0 => none
  | w + 1 =>
      match taskScanK [] (rest0.drop (w + 1)) with
      | some g => some g
      | none => taskWsLoop rest0 w

/-- Match of the literal prefix `remind\s+me\s+to` at the head of `l`,
returning the text after `to` (each inner `\s+` is deterministic because it
is followed by a letter). -/
def taskPrefixAt (l : List Char) : Option (List Char) :=
  if ciStarts "remind".toList l then
    let r1 := l.drop 6
    let n1 := leadWs r1
    if 1 ≤ n1 then
      let r2 := r1.drop n1
      if ciStarts "me".toList r2 then
        let r3 := r2.drop 2
        let n2 := leadWs r3
        if 1 ≤ n2 then
          let r4 := r3.drop n2
          if ciStarts "to".toList r4 then some (r4.drop 2) else none
        else none
      else none
    else none
  else none

/-- Leftmost-position scan of `task_match`; the captured group is returned
for the first position where the whole pattern can succeed. -/
def searchTaskAux : List Char → Option (List Char)
  | [] => none
  | c :: rest =>
      match taskPrefixAt (c :: rest) with
      | some rest0 =>
          match taskWsLoop rest0 (leadWs rest0) with
          | some g => some g
          | none => searchTaskAux rest
      | none => searchTaskAux rest

/-- Result of `task_match`: the raw capture of group 1, `none` when
`re.search` finds no match. -/
def searchTask (l : List Char) : Option (List Char) :=
  searchTaskAux l

/-- Attempt of `time_pattern` anchored at the head of `l`: literal `at`,
then `\s+`, a greedy one-or-two digit hour, an optional `:(\d{2})` minute,
`\s*`, and an optional meridiem.  All optional parts are deterministic since
nothing follows them in the pattern. -/
def timeAt (l : List Char) : Option (Nat × Option Nat × Option Meridiem) :=
  if ciStarts "at".toList l then
    let r := l.drop 2
    let n := leadWs r
    if 1 ≤ n then
      match r.drop n with
      | d1 :: r3 =>
          if d1.isDigit then
            let hr :=
              match r3 with
              | d2 :: r4 => if d2.isDigit then (dval d1 * 10 + dval d2, r4) else (dval d1, r3)
              | [] => (dval d1, ([] : List Char))
            let mn :=
              match hr.2 with
              | ':' :: m1 :: m2 :: r5 =>
                  if m1.isDigit && m2.isDigit then (some (dval m1 * 10 + dval m2), r5)
                  else (none, hr.2)
              | _ => ((none : Option Nat), hr.2)
            let r6 := mn.2.drop (leadWs mn.2)
            let mer : Option Meridiem :=
              if ciStarts "am".toList r6 then some .am
              else if ciStarts "pm".toList r6 then some .pm
              else none
            some (hr.1, mn.1, mer)
          else none
      | [] => none
    else none
  else none

/-- Leftmost-position scan of `time_pattern`, returning the captures
(hour digits, optional minute digits, optional meridiem). -/
def searchTimeAux : List Char → Option (Nat × Option Nat × Option Meridiem)
  | [] => none
  | c :: rest =>
      match timeAt (c :: rest) with
      | some v => some v
      | none => searchTimeAux rest

/-- Result of `time_pattern` over the whole input. -/
def searchTime (l : List Char) : Option (Nat × Option Nat × Option Meridiem) :=
  searchTimeAux l

/-! ### The fact pattern of `Brain._handle_remember`

`fact_match` uses `remember\s+(?:that\s+)?(.+)` (no word boundary), again
under `re.search`. -/

/-- Inner loop for `\s+(.+)`: `\s+` is greedy, and `(.+)` succeeds exactly
when the remainder starts with a non-newline character, capturing the
longest newline-free run. -/
def dotPlusWsLoop (r : List Char) : Nat → Option (List Char)
  | 0 => none
  | w + 1 =>
      match r.drop (w + 1) with
      | c :: rest =>
          if c ≠ '\n' then some ((c :: rest).takeWhile (fun d => d ≠ '\n'))
          else dotPlusWsLoop r w
      | [] => dotPlusWsLoop r w

/-- The optional group `(?:that\s+)?` followed by `(.+)`, attempted with the
group first (the engine prefers taking an optional group). -/
def factThatBranch (r2 : List Char) : Option (List Char) :=
  if ciStarts "that".toList r2 then
    let r3 := r2.drop 4
    dotPlusWsLoop r3 (leadWs r3)
  else none

/-- Backtracking over the `\s+` after `remember`: for each whitespace split
(longest first) try `that\s+(.+)`, then `(.+)` directly. -/
def factWsLoop (r : List Char) : Nat → Option (List Char)
  | 0 => none
  | w + 1 =>
      let r2 := r.drop (w + 1)
      match factThatBranch r2 with
      | some g => some g
      | none =>
          match r2 with
          | c :: rest =>
              if c ≠ '\n' then some ((c :: rest).takeWhile (fun d => d ≠ '\n'))
              else factWsLoop r w
          | [] => factWsLoop r w

/-- Attempt of `fact_match` anchored at the head of `l`. -/
def factAt (l : List Char) : Option (List Char) :=
  if ciStarts "remember".toList l then
    let r := l.drop 8
    factWsLoop r (leadWs r)
  else none

/-- Leftmost-position scan of `fact_match`. -/
def searchFactAux : List Char → Option (List Char)
  | [] => none
  | c :: rest =>
      match factAt (c :: rest) with
      | some g => some g
      | none => searchFactAux rest

/-- Result of `fact_match` in `_handle_remember`. -/
def searchFact (l : List Char) : Option (List Char) :=
  searchFactAux l

/-! ### Naive `datetime.datetime` values

`processor.py` and `storage.py` use naive (timezone-free) datetimes.  A
value is a 7-tuple of naturals; Python's comparison operators compare the
field tuples lexicographically. -/

/-- Shallow model of a naive `datetime.datetime` value. -/
structure PyDateTime where
  year : Nat
  month : Nat
  day : Nat
  hour : Nat
  minute : Nat
  second : Nat
  microsecond : Nat
deriving DecidableEq, Repr

/-- Gregorian leap-year rule. -/
def isLeap (y : Nat) : Bool :=
  (y % 4 = 0 && y % 100 ≠ 0) || y % 400 = 0

/-- Length of a month in the proleptic Gregorian calendar. -/
def daysInMonth (y m : Nat) : Nat :=
  match m with
  | 1 => 31
  | 2 => if isLeap y then 29 else 28
  | 3 => 31
  | 4 => 30
  | 5 => 31
  | 6 => 30
  | 7 => 31
  | 8 => 31
  | 9 => 30
  | 10 => 31
  | 11 => 30
  | 12 => 31
  | _ => 0

/-- Field ranges a real `datetime.datetime` value always satisfies. -/
def PyDateTime.valid (a : PyDateTime) : Bool :=
  decide (1 ≤ a.year) && decide (a.year ≤ 9999) &&
  decide (1 ≤ a.month) && decide (a.month ≤ 12) &&
  decide (1 ≤ a.day) && decide (a.day ≤ daysInMonth a.year a.month) &&
  decide (a.hour ≤ 23) && decide (a.minute ≤ 59) && decide (a.second ≤ 59) &&
  decide (a.microsecond ≤ 999999)

/-- Strict chronological order: lexicographic comparison of the field
tuples, exactly as CPython compares two naive datetimes. -/
def PyDateTime.ltProp (a b : PyDateTime) : Prop :=
  a.year < b.year ∨ (a.year = b.year ∧
    (a.month < b.month ∨ (a.month = b.month ∧
      (a.day < b.day ∨ (a.day = b.day ∧
        (a.hour < b.hour ∨ (a.hour = b.hour ∧
          (a.minute < b.minute ∨ (a.minute = b.minute ∧
            (a.second < b.second ∨ (a.second = b.second ∧
              a.microsecond < b.microsecond)))))))))))

/-- Non-strict chronological order on naive datetimes. -/
def PyDateTime.leProp (a b : PyDateTime) : Prop :=
  PyDateTime.ltProp a b ∨ a = b

instance (a b : PyDateTime) : Decidable (PyDateTime.ltProp a b) := by
  unfold PyDateTime.ltProp; infer_instance

instance (a b : PyDateTime) : Decidable (PyDateTime.leProp a b) := by
  unfold PyDateTime.leProp; infer_instance

/-- Boolean form of `a < b` on datetimes. -/
def PyDateTime.ltb (a b : PyDateTime) : Bool :=
  decide (PyDateTime.ltProp a b)

/-- Boolean form of `a <= b` on datetimes (the test in `_handle_remind`). -/
def PyDateTime.leb (a b : PyDateTime) : Bool :=
  decide (PyDateTime.leProp a b)

/-- Model of `now.replace(hour=h, minute=m, second=0, microsecond=0)`; the
`ValueError` CPython raises for out-of-range fields is checked separately by
the caller's embedding. -/
def replaceTime (now : PyDateTime) (h m : Nat) : PyDateTime :=
  { now with hour := h, minute := m, second := 0, microsecond := 0 }

/-- Model of `dt + datetime.timedelta(days=1)`: advance by one calendar
day. -/
def addOneDay (dt : PyDateTime) : PyDateTime :=
  if dt.day < daysInMonth dt.year dt.month then { dt with day := dt.day + 1 }
  else if dt.month < 12 then { dt with month := dt.month + 1, day := 1 }
  else { dt with year := dt.year + 1, month := 1, day := 1 }

/-- ASCII digit for a value below ten. -/
def digitChar (n : Nat) : Char :=
  match n with
  | 0 => '0'
  | 1 => '1'
  | 2 => '2'
  | 3 => '3'
  | 4 => '4'
  | 5 => '5'
  | 6 => '6'
  | 7 => '7'
  | 8 => '8'
  | 9 => '9'
  | _ => '*'

/-- Two-digit zero-padded rendering (`%02d` for values below 100). -/
def pad2 (n : Nat) : List Char :=
  [digitChar (n / 10), digitChar (n % 10)]

/-- Four-digit zero-padded rendering (`%04d` for values below 10000),
written as its upper and lower two-digit halves. -/
def pad4 (n : Nat) : List Char :=
  pad2 (n / 100) ++ pad2 (n % 100)

/-- Character list of `dt.isoformat(timespec="seconds")` for a naive
datetime: the fixed 19-character form `YYYY-MM-DDTHH:MM:SS`. -/
def isoChars (dt : PyDateTime) : List Char :=
  pad4 dt.year ++ '-' :: (pad2 dt.month ++ '-' :: (pad2 dt.day ++
    'T' :: (pad2 dt.hour ++ ':' :: (pad2 dt.minute ++ ':' :: pad2 dt.second))))

/-- String form of `dt.isoformat(timespec="seconds")`. -/
def isoString (dt : PyDateTime) : String :=
  String.mk (isoChars dt)

/-- Byte-wise (code-point-wise) lexicographic `<=` on character lists:
SQLite's default BINARY collation used by `remind_at <= ?` and
`ORDER BY remind_at` on the TEXT column. -/
def charListLe : List Char → List Char → Bool
  | [], _ => true
  | _ :: _, [] => false
  | a :: as, b :: bs =>
      if a.toNat < b.toNat then true
      else if b.toNat < a.toNat then false
      else charListLe as bs

/-- Strict byte-wise lexicographic `<` on character lists. -/
def charListLt : List Char → List Char → Bool
  | [], [] => false
  | [], _ :: _ => true
  | _ :: _, [] => false
  | a :: as, b :: bs =>
      if a.toNat < b.toNat then true
      else if b.toNat < a.toNat then false
      else charListLt as bs

/-- SQLite string comparison `a <= b` on stored TEXT values. -/
def sqlLe (a b : String) : Bool :=
  charListLe a.toList b.toList

/-- SQLite string comparison `a < b` on stored TEXT values. -/
def sqlLt (a b : String) : Bool :=
  charListLt a.toList b.toList

/-- Day of week for a Gregorian date (Sakamoto's method; 0 is Sunday),
backing `strftime("%A")`. -/
def dayOfWeek (y m d : Nat) : Nat :=
  let t : Nat :=
    match m with
    | 1 => 0 | 2 => 3 | 3 => 2 | 4 => 5 | 5 => 0 | 6 => 3
    | 7 => 5 | 8 => 1 | 9 => 4 | 10 => 6 | 11 => 2 | 12 => 4
    | _ => 0
  let y' := if m < 3 then y - 1 else y
  (y' + y' / 4 + y' / 400 + t + d - y' / 100) % 7

/-- English weekday name (`strftime("%A")`, C locale). -/
def weekdayName (dt : PyDateTime) : String :=
  match dayOfWeek dt.year dt.month dt.day with
  | 0 => "Sunday"
  | 1 => "Monday"
  | 2 => "Tuesday"
  | 3 => "Wednesday"
  | 4 => "Thursday"
  | 5 => "Friday"
  | _ => "Saturday"

/-- English month name (`strftime("%B")`, C locale). -/
def monthName (m : Nat) : String :=
  match m with
  | 1 => "January" | 2 => "February" | 3 => "March" | 4 => "April"
  | 5 => "May" | 6 => "June" | 7 => "July" | 8 => "August"
  | 9 => "September" | 10 => "October" | 11 => "November" | 12 => "December"
  | _ => ""

/-- Two-digit string (`%02d`). -/
def pad2Str (n : Nat) : String :=
  String.mk (pad2 n)

/-- Rendering of `strftime("%I:%M %p")`: zero-padded 12-hour clock with an
upper-case meridiem. -/
def fmtClock (dt : PyDateTime) : String :=
  let h12 := if dt.hour % 12 = 0 then 12 else dt.hour % 12
  pad2Str h12 ++ ":" ++ pad2Str dt.minute ++ " " ++ (if dt.hour < 12 then "AM" else "PM")

/-- Rendering of `strftime("%A, %B %d, %Y")` used by the `date` intent. -/
def fmtDate (dt : PyDateTime) : String :=
  weekdayName dt ++ ", " ++ monthName dt.month ++ " " ++ pad2Str dt.day ++ ", " ++ toString dt.year

/-- Rendering of `strftime("%A %I:%M %p")` used by `_list_reminders`. -/
def fmtReminderTime (dt : PyDateTime) : String :=
  weekdayName dt ++ " " ++ fmtClock dt

/-- Inverse of `isoString` restricted to the 19-character seconds form this
program writes: `datetime.fromisoformat` on such a string, with the
`ValueError` for a malformed string modelled as `none` (wider inputs
accepted by CPython are outside what the store ever contains). -/
def parseIso (l : List Char) : Option PyDateTime :=
  match l with
  | [y1, y2, y3, y4, '-', m1, m2, '-', d1, d2, 'T', h1, h2, ':', n1, n2, ':', s1, s2] =>
      if y1.isDigit && y2.isDigit && y3.isDigit && y4.isDigit &&
         m1.isDigit && m2.isDigit && d1.isDigit && d2.isDigit &&
         h1.isDigit && h2.isDigit && n1.isDigit && n2.isDigit &&
         s1.isDigit && s2.isDigit then
        let dt : PyDateTime :=
          { year := dval y1 * 1000 + dval y2 * 100 + dval y3 * 10 + dval y4
            month := dval m1 * 10 + dval m2
            day := dval d1 * 10 + dval d2
            hour := dval h1 * 10 + dval h2
            minute := dval n1 * 10 + dval n2
            second := dval s1 * 10 + dval s2
            microsecond := 0 }
        if dt.valid then some dt else none
      else none
  | _ => none

/-! ### The persistent store of `memory/storage.py`

Rows of the two SQLite tables.  `id` is `INTEGER PRIMARY KEY AUTOINCREMENT`:
ids are assigned from a monotone counter and rows are returned in rowid
(insertion) order unless a query has an `ORDER BY`. -/

/-- Row of the `memories` table. -/
structure MemoryRow where
  id : Nat
  content : String
  saved_at : String
deriving DecidableEq, Repr

/-- Row of the `reminders` table (`notified`: 0 = pending, 1 = done). -/
structure Reminder where
  id : Nat
  task : String
  remind_at : String
  notified : Bool
deriving DecidableEq, Repr

/-- State of the `MemoryStore` database: both tables in rowid order plus the
autoincrement counters. -/
structure Store where
  memories : List MemoryRow
  nextMemId : Nat
  reminders : List Reminder
  nextRemId : Nat
deriving DecidableEq, Repr

/-- Freshly initialised database (`_init_db` on a new file). -/
def Store.empty : Store :=
  { memories := [], nextMemId := 1, reminders := [], nextRemId := 1 }

/-- Model of `MemoryStore.save_memory`: strip the content, stamp it with
`now.isoformat(timespec="seconds")`, append. -/
def saveMemory (s : Store) (content : String) (now : PyDateTime) : Store :=
  { s with
      memories := s.memories ++ [⟨s.nextMemId, pyStripStr content, isoString now⟩]
      nextMemId := s.nextMemId + 1 }

/-- Model of `MemoryStore.get_all_memories`: every row, `ORDER BY id DESC`
(newest first). -/
def getAllMemories (s : Store) : List MemoryRow :=
  s.memories.reverse

/-- Model of `MemoryStore.clear_memories`: empties `memories` only. -/
def clearMemories (s : Store) : Store :=
  { s with memories := [] }

/-- Model of `MemoryStore.add_reminder`: strip the task, render the datetime
with `isoformat(timespec="seconds")`, append with `notified = 0`. -/
def addReminder (s : Store) (task : String) (remind_at : PyDateTime) : Store :=
  { s with
      reminders := s.reminders ++ [⟨s.nextRemId, pyStripStr task, isoString remind_at, false⟩]
      nextRemId := s.nextRemId + 1 }

/-- Stable ascending insertion by strict SQLite comparison of `remind_at`
(rows with equal keys keep their rowid order). -/
def insertByRemindAt (x : Reminder) : List Reminder → List Reminder
  | [] => [x]
  | y :: ys => if sqlLt y.remind_at x.remind_at then y :: insertByRemindAt x ys else x :: y :: ys

/-- Sorting performed by `ORDER BY remind_at` on the TEXT column. -/
def sortByRemindAt : List Reminder → List Reminder
  | [] => []
  | x :: xs => insertByRemindAt x (sortByRemindAt xs)

/-- Model of `MemoryStore.get_pending_reminders`: `notified=0`,
`ORDER BY remind_at`. -/
def getPendingReminders (s : Store) : List Reminder :=
  sortByRemindAt (s.reminders.filter (fun r => !r.notified))

/-- Model of `MemoryStore.get_due_reminders`: `notified=0 AND remind_at <=
now`, with no `ORDER BY` — rows come back in rowid (insertion) order.  The
comparison is SQLite TEXT comparison against `now.isoformat(
timespec="seconds")`. -/
def getDueReminders (s : Store) (nowIso : String) : List Reminder :=
  s.reminders.filter (fun r => !r.notified && sqlLe r.remind_at nowIso)

/-- Model of `MemoryStore.mark_notified`: `UPDATE reminders SET notified=1
WHERE id=?` (idempotent, touches nothing else). -/
def markNotified (s : Store) (reminderId : Nat) : Store :=
  { s with
      reminders := s.reminders.map (fun r =>
        if r.id = reminderId then { r with notified := true } else r) }

/-! ### Collaborator environment

Every external capability `Brain.process` can call.  As in `apps.py` and
`knowledge.py`, each collaborator call returns a string for every input (all
their faults are caught at the collaborator boundary).  `pyEval` models
CPython's `eval(expr, {"__builtins__": {}, "math": math})` as called by
`_try_calculate`: `some s` is `str(result)`, `none` is a raised evaluation
exception (which `_try_calculate` catches). -/

/-- Collaborators and ambient state visible to one `process` call. -/
structure Env where
  now : PyDateTime
  jokeIndex : Nat
  openApp : String → String
  closeApp : String → String
  openFolder : String → String
  lockScreen : String
  shutdownPc : String
  restartPc : String
  sleepPc : String
  takeScreenshot : String
  volumeChange : String → String
  findAnswer : String → Bool → String
  pyEval : String → Option String

/-- The `config.USER_NAME` constant. -/
def USER_NAME : String := "Rihan"

/-- Keys of `config.APP_COMMANDS` in insertion order. -/
def appNames : List String :=
  ["chrome", "google chrome", "firefox", "notepad", "calculator", "vs code",
   "vscode", "visual studio code", "file explorer", "task manager",
   "settings", "paint", "cmd", "command prompt", "powershell", "spotify",
   "word", "excel", "vlc"]

/-- Keys of `config.FOLDER_COMMANDS` in insertion order. -/
def folderNames : List String :=
  ["downloads", "documents", "desktop", "pictures", "music", "videos"]

/-- Keys of `config.PROCESS_NAMES` in insertion order. -/
def processNames : List String :=
  ["chrome", "google chrome", "firefox", "notepad", "calculator", "vs code",
   "vscode", "spotify", "vlc", "word", "excel"]

/-- Stable insertion keeping strictly longer names first: the behaviour of
Python's stable `sorted(names, key=len, reverse=True)`. -/
def insertByLenDesc (x : String) : List String → List String
  | [] => [x]
  | y :: ys => if x.length < y.length then y :: insertByLenDesc x ys else x :: y :: ys

/-- The candidate order `sorted(names, key=len, reverse=True)` used by the
open/close/folder handlers. -/
def sortByLenDesc : List String → List String
  | [] => []
  | x :: xs => insertByLenDesc x (sortByLenDesc xs)

/-- Longest-match-first name lookup shared by `_handle_open`,
`_handle_close` and `_handle_folder`: first configured name, in
length-descending order, that occurs as a substring of the text. -/
def findName (names : List String) (t : List Char) : Option String :=
  (sortByLenDesc names).find? (fun n => containsSub n.toList t)

/-- Model of `Brain._handle_open`. -/
def handleOpen (env : Env) (t : List Char) : Option String :=
  (findName appNames t).map env.openApp

/-- Model of `Brain._handle_close`. -/
def handleClose (env : Env) (t : List Char) : Option String :=
  (findName processNames t).map env.closeApp

/-- Model of `Brain._handle_folder`. -/
def handleFolder (env : Env) (t : List Char) : Option String :=
  (findName folderNames t).map env.openFolder

/-- The `restart` intent pattern. -/
def restartSearch (l : List Char) : Bool :=
  wordSearch ["restart", "reboot"] l

/-! ### Remaining handlers of `Brain` -/

/-- Exceptions that can escape the embedded code: `datetime.replace` and
`datetime.fromisoformat` raise `ValueError` on out-of-range fields. -/
inductive PyError where
  | valueError
deriving DecidableEq, Repr

/-- Model of `re.sub` with a word-bounded alternation pattern and empty
replacement: scan left to right, at each position try the alternatives in
pattern order, drop a match and resume after it (boundary checks keep using
the original neighbouring characters).  All phrases used are non-empty, so
each step consumes at least one character; the fuel argument (initially the
text length) only makes the recursion structural and is never exhausted. -/
def subRemoveAux (ps : List (List Char)) : Nat → Option Char → List Char → List Char
  | 0, _, l => l
  | _ + 1, _, [] => []
  | fuel + 1, prev, c :: rest =>
      match ps.find? (fun p => phraseAt p prev (c :: rest)) with
      | some p =>
          subRemoveAux ps fuel ((c :: rest).take p.length).getLast? (rest.drop (p.length - 1))
      | none => c :: subRemoveAux ps fuel (some c) rest

/-- Removal of every word-bounded occurrence of the given phrases, as the
`re.sub(..., "", text)` calls in `process` and `_try_calculate` do. -/
def subRemovePhrases (ps : List String) (l : List Char) : List Char :=
  subRemoveAux (ps.map String.toList) l.length none l

/-- Characters admitted by `_try_calculate`'s class `[\d\s\+\-\*\/\^\(\)\.]`. -/
def isCalcChar (c : Char) : Bool :=
  c.isDigit || pyIsSpace c || c = '+' || c = '-' || c = '*' || c = '/' ||
  c = '^' || c = '(' || c = ')' || c = '.'

/-- Prefixes stripped by `_try_calculate` before the character-class test. -/
def calcPrefixes : List String :=
  ["calculate", "what is", "compute", "how much is"]

/-- The `cleaned.replace("^", "**")` translation. -/
def caretFix : List Char → List Char
  | [] => []
  | c :: rest => if c = '^' then '*' :: '*' :: caretFix rest else c :: caretFix rest

/-- Model of `Brain._try_calculate`: strip the known prefixes; unless the
remainder is non-empty and drawn from the arithmetic character class, report
no match; otherwise translate `^` and hand the expression to the sandboxed
`eval`, converting an evaluation fault into no match. -/
def tryCalculate (env : Env) (t : List Char) : Option String :=
  let cleaned := pyStrip (subRemovePhrases calcPrefixes t)
  if !cleaned.isEmpty && cleaned.all isCalcChar then
    (env.pyEval (String.mk (caretFix cleaned))).map (fun r => "The answer is " ++ r ++ ".")
  else none

/-- The 24-hour normalisation in `_handle_remind`: `pm` adds 12 to hours
below 12, `am` maps hour 12 to 0, anything else is unchanged. -/
def normHour (h : Nat) (mer : Option Meridiem) : Nat :=
  match mer with
  | some .pm => if h < 12 then h + 12 else h
  | some .am => if h = 12 then 0 else h
  | none => h

/-- Model of `Brain._handle_remind`.  A missing task or time yields a
clarifying question and leaves the store alone; with both parsed, the target
is `now.replace(hour, minute, second=0, microsecond=0)`, rolled forward one
day when not strictly after `now`, and persisted via `add_reminder`.
`now.replace` raises `ValueError` when the parsed hour exceeds 23 or the
minute exceeds 59. -/
def handleRemind (env : Env) (s : Store) (t : List Char) : Except PyError (String × Store) :=
  let timeP := searchTime t
  match searchTask t with
  | none => .ok ("What should I remind you about, and at what time?", s)
  | some taskRaw =>
      let task := String.mk (pyStrip taskRaw)
      match timeP with
      | some (h, mo, mer) =>
          let hour := normHour h mer
          let minute := mo.getD 0
          if hour ≤ 23 && minute ≤ 59 then
            let dt0 := replaceTime env.now hour minute
            let dt := if PyDateTime.leb dt0 env.now then addOneDay dt0 else dt0
            .ok ("Got it! I'll remind you to '" ++ task ++ "' at " ++ fmtClock dt ++ ".",
              addReminder s task dt)
          else .error .valueError
      | none =>
          .ok ("When should I remind you to '" ++ task ++ "'? Please say a time like 'at 8 pm'.", s)

/-- Formatting loop of `Brain._list_reminders`: `fromisoformat` on each
stored `remind_at` (raising on a malformed value), then
`strftime("%A %I:%M %p")`. -/
def fmtRows : List Reminder → Except PyError (List String)
  | [] => .ok []
  | r :: rs =>
      match parseIso r.remind_at.toList with
      | none => .error .valueError
      | some dt =>
          match fmtRows rs with
          | .error e => .error e
          | .ok ls => .ok (("• " ++ r.task ++ " — " ++ fmtReminderTime dt) :: ls)

/-- Model of `Brain._list_reminders`. -/
def listRemindersExc (s : Store) : Except PyError String :=
  let pending := getPendingReminders s
  if pending.isEmpty then .ok "You have no pending reminders."
  else
    match fmtRows pending with
    | .error e => .error e
    | .ok lines => .ok ("Your reminders:\n" ++ String.intercalate "\n" lines)

/-- Model of `Brain._handle_remember`. -/
def handleRemember (env : Env) (s : Store) (t : List Char) : String × Store :=
  match searchFact t with
  | some g =>
      let fact := String.mk (pyStrip g)
      ("I'll remember that: '" ++ fact ++ "'", saveMemory s fact env.now)
  | none => ("What would you like me to remember?", s)

/-- Model of `Brain._handle_recall`. -/
def recallResp (s : Store) : String :=
  let mems := getAllMemories s
  if mems.isEmpty then "I don't have anything saved in memory yet."
  else
    "Here's what I remember:\n" ++ String.intercalate "\n"
      (mems.map (fun m => "• " ++ m.content ++ "  (saved " ++ String.mk (m.saved_at.toList.take 10) ++ ")"))

/-- Model of `Brain._greet`. -/
def greetResp (env : Env) : String :=
  let h := env.now.hour
  let tod :=
    if 5 ≤ h && h < 12 then "Good morning"
    else if 12 ≤ h && h < 17 then "Good afternoon"
    else if 17 ≤ h && h < 21 then "Good evening"
    else "Hey"
  tod ++ ", " ++ USER_NAME ++ "! How can I help you today?"

/-- The `JOKES` table of `processor.py`. -/
def JOKES : List String :=
  ["Why do programmers prefer dark mode? Because light attracts bugs!",
   "I would tell you a UDP joke, but you might not get it.",
   "A SQL query walks into a bar, walks up to two tables and asks: Can I join you?",
   "Why did the computer go to the doctor? It had a virus!",
   "To understand recursion, you must first understand recursion.",
   "There are only 10 kinds of people: those who understand binary, and those who don't."]

/-- Model of `random.choice(JOKES)`: the nondeterministic draw is supplied
by the environment as an index reduced modulo the table length. -/
def jokeResp (env : Env) : String :=
  JOKES.getD (env.jokeIndex % 6) ""

/-- Result of one router call: the `(response, should_exit)` pair plus the
store state after the call, or an escaped exception. -/
abbrev RouterResult := Except PyError ((String × Bool) × Store)

/-- Router tail from the news check down to the catch-all search. -/
def stageNews (env : Env) (s : Store) (t : List Char) : RouterResult :=
  if newsSearch t then .ok ((env.findAnswer "latest news today" false, false), s)
  else .ok ((env.findAnswer (String.mk t) true, false), s)

/-- Router tail from the explicit-search check. -/
def stageSearch (env : Env) (s : Store) (t : List Char) : RouterResult :=
  if searchSearch t then
    .ok ((env.findAnswer (String.mk (pyStrip (subRemovePhrases
      ["search for", "look up", "find", "google", "search"] t))) false, false), s)
  else stageNews env s t

/-- Router tail from the `what_is` (Wikipedia) check. -/
def stageWhatIs (env : Env) (s : Store) (t : List Char) : RouterResult :=
  if whatIsSearch t then
    .ok ((env.findAnswer (String.mk (pyStrip (subRemovePhrases
      ["what is", "what are", "who is", "who was", "tell me about",
       "explain", "define", "describe"] t))) true, false), s)
  else stageSearch env s t

/-- Router tail from the weather notice. -/
def stageWeather (env : Env) (s : Store) (t : List Char) : RouterResult :=
  if weatherSearch t then
    .ok (("I don't have a weather API, but you can check weather.com or ask me to open Chrome and search for the weather.", false), s)
  else stageWhatIs env s t

/-- Router tail from the calculator attempt. -/
def stageCalc (env : Env) (s : Store) (t : List Char) : RouterResult :=
  match tryCalculate env t with
  | some r => .ok ((r, false), s)
  | none => stageWeather env s t

/-- Router tail from the clear-memory check. -/
def stageClearMem (env : Env) (s : Store) (t : List Char) : RouterResult :=
  if clearMemorySearch t then .ok (("I've cleared all stored memories.", false), clearMemories s)
  else stageCalc env s t

/-- Router tail from the recall check. -/
def stageRecall (env : Env) (s : Store) (t : List Char) : RouterResult :=
  if recallSearch t then .ok ((recallResp s, false), s)
  else stageClearMem env s t

/-- Router tail from the remember (note-save) check. -/
def stageRemember (env : Env) (s : Store) (t : List Char) : RouterResult :=
  if rememberSearch t then
    let p := handleRemember env s t
    .ok ((p.1, false), p.2)
  else stageRecall env s t

/-- Router tail from the list-reminders check. -/
def stageListRem (env : Env) (s : Store) (t : List Char) : RouterResult :=
  if listRemindersSearch t then
    match listRemindersExc s with
    | .error e => .error e
    | .ok r => .ok ((r, false), s)
  else stageRemember env s t

/-- Router tail from the reminder-creation check. -/
def stageRemind (env : Env) (s : Store) (t : List Char) : RouterResult :=
  if remindSearch t then
    match handleRemind env s t with
    | .error e => .error e
    | .ok (r, s') => .ok ((r, false), s')
  else stageListRem env s t

/-- Router tail from the close-app check (a handler miss falls through). -/
def stageClose (env : Env) (s : Store) (t : List Char) : RouterResult :=
  if closeAppSearch t then
    match handleClose env t with
    | some r => .ok ((r, false), s)
    | none => stageRemind env s t
  else stageRemind env s t

/-- Router tail from the open-app check (a handler miss falls through). -/
def stageOpen (env : Env) (s : Store) (t : List Char) : RouterResult :=
  if openAppSearch t then
    match handleOpen env t with
    | some r => .ok ((r, false), s)
    | none => stageClose env s t
  else stageClose env s t

/-- Router tail from the open-folder check (a handler miss falls through). -/
def stageFolder (env : Env) (s : Store) (t : List Char) : RouterResult :=
  if openFolderSearch t then
    match handleFolder env t with
    | some r => .ok ((r, false), s)
    | none => stageOpen env s t
  else stageOpen env s t

/-- Body of `Brain.process` on the already-normalised text `t`: the ordered
intent checks exactly as the source lists them, short-circuiting at the
first match. -/
def processOn (env : Env) (s : Store) (t : List Char) : RouterResult :=
  if t.isEmpty then .ok (("I didn't catch that. Could you repeat?", false), s)
  else if farewellSearch t then .ok (("Take care, " ++ USER_NAME ++ "! Shutting down now.", true), s)
  else if greetingSearch t then .ok ((greetResp env, false), s)
  else if howAreYouSearch t then
    .ok (("I'm running perfectly — ready to help you, " ++ USER_NAME ++ "!", false), s)
  else if timeSearch t then .ok (("It's currently " ++ fmtClock env.now ++ ".", false), s)
  else if dateSearch t then .ok (("Today is " ++ fmtDate env.now ++ ".", false), s)
  else if daySearch t then .ok (("Today is " ++ weekdayName env.now ++ ".", false), s)
  else if jokeSearch t then .ok ((jokeResp env, false), s)
  else if lockSearch t then .ok ((env.lockScreen, false), s)
  else if shutdownSearch t then .ok ((env.shutdownPc, false), s)
  else if restartSearch t then .ok ((env.restartPc, false), s)
  else if sleepPcSearch t then .ok ((env.sleepPc, false), s)
  else if screenshotSearch t then .ok ((env.takeScreenshot, false), s)
  else if volumeUpSearch t then .ok ((env.volumeChange "up", false), s)
  else if volumeDownSearch t then .ok ((env.volumeChange "down", false), s)
  else if muteSearch t then .ok ((env.volumeChange "mute", false), s)
  else stageFolder env s t

/-- Model of `Brain.process`: `t = text.strip().lower()`, then the ordered
dispatch of `processOn`. -/
def process (env : Env) (s : Store) (text : String) : RouterResult :=
  processOn env s (pyNorm text.toList)

/-! ### The background scheduler of `storage.py`

`ReminderThread.run` repeats: `due = get_due_reminders()`, then for each row
in the returned order, deliver (`callback`) and then `mark_notified`.  The
store lock serialises each store call individually; the fetch-deliver-mark
sequence is not atomic.  To examine the claimed at-most-once guarantee under
concurrent polling, the cycle body is modelled as a small transition system
whose atomic steps are exactly the individual store operations plus the
delivery call. -/

/-- One atomic step of a polling cycle: a store fetch, a delivery callback
for a reminder id, or a `mark_notified` for a reminder id. -/
inductive SchedOp where
  | fetch
  | deliver (i : Nat)
  | mark (i : Nat)
deriving DecidableEq, Repr

/-- Progress of one thread through the cycle body: whether its fetch has
happened, the fetched ids still to process, and whether the head id has
been delivered but not yet marked. -/
structure TState where
  fetched : Bool
  queue : List Nat
  mid : Bool
deriving DecidableEq, Repr

/-- Thread state before its fetch. -/
def TState.start : TState :=
  { fetched := false, queue := [], mid := false }

/-- Validity and effect of one atomic step against the shared store,
following the program order of `ReminderThread.run`: fetch first, then for
each fetched id a delivery immediately followed by its mark. -/
def schedStep (nowIso : String) (s : Store) (ts : TState) : SchedOp → Option (Store × TState)
  | .fetch =>
      if ts.fetched then none
      else some (s, { fetched := true, queue := (getDueReminders s nowIso).map (fun r => r.id), mid := false })
  | .deliver i =>
      if ts.fetched && !ts.mid && decide (ts.queue.head? = some i) then
        some (s, { ts with mid := true })
      else none
  | .mark i =>
      if ts.fetched && ts.mid && decide (ts.queue.head? = some i) then
        some (markNotified s i, { ts with queue := ts.queue.tail, mid := false })
      else none

/-- Execution of an interleaving of two polling threads (`false` and `true`)
against a shared store; `none` marks an interleaving that is not a run of
two cycle bodies. -/
def runTrace (nowIso : String) : Store → TState → TState → List (Bool × SchedOp) → Option Store
  | s, _, _, [] => some s
  | s, t1, t2, (tid, op) :: rest =>
      if tid then
        match schedStep nowIso s t2 op with
        | some (s', t2') => runTrace nowIso s' t1 t2' rest
        | none => none
      else
        match schedStep nowIso s t1 op with
        | some (s', t1') => runTrace nowIso s' t1' t2 rest
        | none => none

/-- Number of delivery events for reminder `i` in a trace. -/
def deliveryCount (trace : List (Bool × SchedOp)) (i : Nat) : Nat :=
  (trace.filter (fun x => x.2 = SchedOp.deliver i)).length

/-- Whether an atomic step is a `mark_notified`. -/
def isMark : SchedOp → Bool
  | .mark _ => true
  | _ => false

/-- Sequential execution of `n` polling cycles by the single
`ReminderThread` the program starts: each cycle fetches the due rows and,
in the returned order, delivers and marks each one.  The result is the
final store and the ids in delivery order. -/
def runCycles (nowIso : String) : Nat → Store → Store × List Nat
  | 0, s => (s, [])
  | n + 1, s =>
      let due := getDueReminders s nowIso
      let s' := due.foldl (fun acc r => markNotified acc r.id) s
      let tail := runCycles nowIso n s'
      (tail.1, due.map (fun r => r.id) ++ tail.2)

/-! ### Concrete instances used by witnesses and counterexamples -/

/-- Concrete collaborator environment: clock at 2025-03-10 09:15:30.123456,
collaborators answering fixed strings, and an `eval` oracle that knows the
one arithmetic fact the specification's example uses. -/
def env0 : Env :=
  { now := ⟨2025, 3, 10, 9, 15, 30, 123456⟩
    jokeIndex := 0
    openApp := fun n => "Opening " ++ n ++ "."
    closeApp := fun n => "Closed " ++ n ++ "."
    openFolder := fun n => "Opening your " ++ n ++ " folder."
    lockScreen := "Screen locked."
    shutdownPc := "PC will shut down in 10 seconds. Say 'cancel shutdown' to abort."
    restartPc := "PC will restart in 10 seconds."
    sleepPc := "Putting the PC to sleep."
    takeScreenshot := "Screenshot saved to Desktop."
    volumeChange := fun _ => "Volume changed."
    findAnswer := fun _ _ => "I couldn't find a reliable answer for that. Try asking me something else!"
    pyEval := fun e => if e = "2 + 2" then some "4" else none }

/-- Store holding one due reminder, as created by `add_reminder`. -/
def dueStore : Store :=
  addReminder Store.empty "call mom" ⟨2025, 3, 10, 8, 0, 0, 0⟩

/-- Query instant strictly after `dueStore`'s reminder. -/
def nowIso0 : String :=
  isoString ⟨2025, 3, 10, 9, 0, 0, 0⟩

/-- Interleaving of two polling cycles in which both threads fetch the due
reminder before either marks it: both deliver it, and every mark comes after
both deliveries. -/
def dupTrace : List (Bool × SchedOp) :=
  [(false, .fetch), (true, .fetch), (false, .deliver 1), (true, .deliver 1),
   (false, .mark 1), (true, .mark 1)]

/-- Guard stating that no intent checked before the reminder branch fires on
`t` (the folder/open/close branches also fall through when their regex fires
but no configured name occurs in the text). -/
def noIntentBeforeRemind (t : List Char) : Bool :=
  !farewellSearch t && !greetingSearch t && !howAreYouSearch t && !timeSearch t &&
  !dateSearch t && !daySearch t && !jokeSearch t && !lockSearch t && !shutdownSearch t &&
  !restartSearch t && !sleepPcSearch t && !screenshotSearch t && !volumeUpSearch t &&
  !volumeDownSearch t && !muteSearch t &&
  !(openFolderSearch t && (findName folderNames t).isSome) &&
  !(openAppSearch t && (findName appNames t).isSome) &&
  !(closeAppSearch t && (findName processNames t).isSome)

/-- Store well-formedness: every stored `remind_at` parses back with
`fromisoformat` (true of every value `add_reminder` ever writes). -/
def storeWF (s : Store) : Bool :=
  s.reminders.all (fun r => (parseIso r.remind_at.toList).isSome)

/-- The reminder branch cannot raise on `t`: either parsing fails (a
clarifying question is returned) or the parsed time, after meridiem
normalisation, is a legal time of day for `datetime.replace`. -/
def remindArgsOk (t : List Char) : Bool :=
  match searchTask t, searchTime t with
  | some _, some (h, mo, mer) => decide (normHour h mer ≤ 23) && decide (mo.getD 0 ≤ 59)
  | _, _ => true

/-- Structural check for the fixed 19-character form `YYYY-MM-DDTHH:MM:SS`. -/
def isoShape (l : List Char) : Bool :=
  match l with
  | [y1, y2, y3, y4, c1, m1, m2, c2, d1, d2, c3, h1, h2, c4, n1, n2, c5, s1, s2] =>
      y1.isDigit && y2.isDigit && y3.isDigit && y4.isDigit && c1 = '-' &&
      m1.isDigit && m2.isDigit && c2 = '-' && d1.isDigit && d2.isDigit && c3 = 'T' &&
      h1.isDigit && h2.isDigit && c4 = ':' && n1.isDigit && n2.isDigit && c5 = ':' &&
      s1.isDigit && s2.isDigit
  | _ => false

/-- Store in which the later-scheduled reminder was created first, so rowid
order disagrees with chronological order. -/
def outOfOrderStore : Store :=
  addReminder (addReminder Store.empty "walk dog" ⟨2025, 3, 12, 8, 0, 0, 0⟩)
    "pay rent" ⟨2025, 3, 11, 5, 0, 0, 0⟩

/-- Query instant at which both rows of `outOfOrderStore` are due. -/
def nowIso1 : String :=
  isoString ⟨2025, 3, 12, 9, 0, 0, 0⟩

/-- The scheduled datetime `_handle_remind` computes from parsed captures:
the normalised time of day on the current date, rolled forward one calendar
day when not strictly after `now`. -/
def remindTarget (now : PyDateTime) (h : Nat) (mo : Option Nat) (mer : Option Meridiem) : PyDateTime :=
  let dt0 := replaceTime now (normHour h mer) (mo.getD 0)
  if PyDateTime.leb dt0 now then addOneDay dt0 else dt0

/-! ### Helper lemmas -/

/-- Totality of the datetime order: a failed `<=` test means the strict
reverse comparison holds. -/
theorem ltProp_of_not_leProp {a b : PyDateTime} (h : ¬ PyDateTime.leProp a b) :
    PyDateTime.ltProp b a := by
  cases a
  cases b
  simp only [PyDateTime.leProp, PyDateTime.ltProp, PyDateTime.mk.injEq] at *
  omega

/-- Rolling the replaced time forward one calendar day always lands strictly
after the original instant. -/
theorem ltProp_addOneDay_replaceTime (now : PyDateTime) (h m : Nat) :
    PyDateTime.ltProp now (addOneDay (replaceTime now h m)) := by
  cases now
  unfold addOneDay replaceTime PyDateTime.ltProp
  split_ifs
  · exact Or.inr ⟨rfl, Or.inr ⟨rfl, Or.inl (Nat.lt_succ_self _)⟩⟩
  · exact Or.inr ⟨rfl, Or.inl (Nat.lt_succ_self _)⟩
  · exact Or.inl (Nat.lt_succ_self _)

/-- The scheduled instant computed by `_handle_remind`: the requested time
of day on the current date, advanced one calendar day when not strictly in
the future. -/
theorem remindTarget_future (now : PyDateTime) (h m : Nat) :
    PyDateTime.ltProp now
      (if PyDateTime.leb (replaceTime now h m) now then addOneDay (replaceTime now h m)
       else replaceTime now h m) := by
  by_cases hle : PyDateTime.leb (replaceTime now h m) now
  · rw [if_pos hle]
    exact ltProp_addOneDay_replaceTime now h m
  · rw [if_neg hle]
    have : ¬ PyDateTime.leProp (replaceTime now h m) now := by
      intro hc
      exact hle (by simpa [PyDateTime.leb] using hc)
    exact ltProp_of_not_leProp this

/-- C1: for every non-empty input whose trimmed, lower-cased text matches a
farewell phrase, `process` returns the farewell response with
`terminate = true` and an unchanged store, regardless of which other intent
patterns also match — the farewell check is the first intent check. -/
theorem c1_farewell_decided_first (env : Env) (s : Store) (text : String)
    (hne : pyNorm text.toList ≠ [])
    (hf : farewellSearch (pyNorm text.toList) = true) :
    process env s text = .ok (("Take care, " ++ USER_NAME ++ "! Shutting down now.", true), s) := by
  have h1 : (pyNorm text.toList).isEmpty = false := by
    cases hx : pyNorm text.toList with
    | nil => exact absurd hx hne
    | cons a l => rfl
  simp only [process, processOn, h1, hf, Bool.false_eq_true, if_false, if_true]

/-- Witness for C1: the input `"good morning, bye"` both greets and bids
farewell, and the router terminates. -/
theorem c1_farewell_decided_first_witness :
    pyNorm "good morning, bye".toList ≠ [] ∧
    farewellSearch (pyNorm "good morning, bye".toList) = true ∧
    greetingSearch (pyNorm "good morning, bye".toList) = true ∧
    process env0 Store.empty "good morning, bye" =
      .ok (("Take care, " ++ USER_NAME ++ "! Shutting down now.", true), Store.empty) :=
  ⟨by decide, by decide, by decide,
    c1_farewell_decided_first env0 Store.empty "good morning, bye" (by decide) (by decide)⟩

/-- C2: whenever both the task phrase and the time expression of a reminder
request parse and the normalised time is a legal time of day (`pm` adds 12
to hours below 12, `am` maps hour 12 to 0), `_handle_remind` persists the
reminder via `add_reminder` with target `remindTarget`, and that target is
strictly later than the creation instant: if the requested time of day is
not strictly after `now`, exactly one calendar day is added. -/
theorem c2_stored_remindAt_strictly_future (env : Env) (s : Store)
    (t taskRaw : List Char) (h : Nat) (mo : Option Nat) (mer : Option Meridiem)
    (hTask : searchTask t = some taskRaw)
    (hTime : searchTime t = some (h, mo, mer))
    (hh : normHour h mer ≤ 23) (hm : mo.getD 0 ≤ 59) :
    handleRemind env s t =
      .ok ("Got it! I'll remind you to '" ++ String.mk (pyStrip taskRaw) ++ "' at " ++
            fmtClock (remindTarget env.now h mo mer) ++ ".",
        addReminder s (String.mk (pyStrip taskRaw)) (remindTarget env.now h mo mer)) ∧
    PyDateTime.ltProp env.now (remindTarget env.now h mo mer) := by
  constructor
  · simp only [handleRemind, hTask, hTime, remindTarget]
    rw [if_pos]
    exact (Bool.and_eq_true _ _).mpr ⟨decide_eq_true hh, decide_eq_true hm⟩
  · exact remindTarget_future env.now (normHour h mer) (mo.getD 0)

/-- Witness for C2: creating `"remind me to call mom at 8 am"` at
09:15:30.123456 on 2025-03-10 schedules the reminder for the next calendar
day at 08:00, strictly in the future. -/
theorem c2_stored_remindAt_strictly_future_witness :
    searchTask (pyNorm "remind me to call mom at 8 am".toList) = some "call mom".toList ∧
    remindTarget env0.now 8 none (some Meridiem.am) = ⟨2025, 3, 11, 8, 0, 0, 0⟩ ∧
    PyDateTime.ltProp env0.now (remindTarget env0.now 8 none (some Meridiem.am)) :=
  ⟨by decide, by decide,
    (c2_stored_remindAt_strictly_future env0 Store.empty
      (pyNorm "remind me to call mom at 8 am".toList) "call mom".toList 8 none
      (some Meridiem.am) (by decide) (by decide) (by decide) (by decide)).2⟩

/-- A reminder branch with admissible parse results cannot raise. -/
theorem handleRemind_isOk (env : Env) (s : Store) (t : List Char)
    (hok : remindArgsOk t = true) : ∃ p, handleRemind env s t = .ok p := by
  unfold remindArgsOk at hok
  unfold handleRemind
  cases hT : searchTask t with
  | none => exact ⟨_, rfl⟩
  | some g =>
      cases hTime : searchTime t with
      | none => exact ⟨_, rfl⟩
      | some v =>
          obtain ⟨h, mo, mer⟩ := v
          rw [hT, hTime] at hok
          simp only [Bool.and_eq_true, decide_eq_true_eq] at hok
          have hcond : (decide (normHour h mer ≤ 23) && decide ((mo.getD 0) ≤ 59)) = true :=
            (Bool.and_eq_true _ _).mpr ⟨decide_eq_true hok.1, decide_eq_true hok.2⟩
          simp only [hcond, if_true]
          exact ⟨_, rfl⟩

/-- Membership is preserved by the stable insertion of the `ORDER BY`
model. -/
theorem mem_insertByRemindAt {x y : Reminder} {l : List Reminder}
    (h : y ∈ insertByRemindAt x l) : y = x ∨ y ∈ l := by
  induction l with
  | nil => simpa [insertByRemindAt] using h
  | cons z zs ih =>
      unfold insertByRemindAt at h
      split at h
      · rcases List.mem_cons.mp h with hz | hrec
        · exact Or.inr (List.mem_cons.mpr (Or.inl hz))
        · rcases ih hrec with he | hm
          · exact Or.inl he
          · exact Or.inr (List.mem_cons.mpr (Or.inr hm))
      · rcases List.mem_cons.mp h with he | hm
        · exact Or.inl he
        · exact Or.inr hm

/-- Membership is preserved by the `ORDER BY remind_at` sort. -/
theorem mem_sortByRemindAt {y : Reminder} {l : List Reminder}
    (h : y ∈ sortByRemindAt l) : y ∈ l := by
  induction l with
  | nil => simp [sortByRemindAt] at h
  | cons z zs ih =>
      unfold sortByRemindAt at h
      rcases mem_insertByRemindAt h with he | hm
      · exact List.mem_cons.mpr (Or.inl he)
      · exact List.mem_cons.mpr (Or.inr (ih hm))

/-- The formatting loop of `_list_reminders` succeeds when every row's
`remind_at` parses. -/
theorem fmtRows_isOk (rows : List Reminder)
    (hall : ∀ r ∈ rows, (parseIso r.remind_at.toList).isSome = true) :
    ∃ ls, fmtRows rows = .ok ls := by
  induction rows with
  | nil => exact ⟨[], rfl⟩
  | cons r rs ih =>
      have hr := hall r (List.mem_cons_self r rs)
      obtain ⟨dt, hdt⟩ := Option.isSome_iff_exists.mp hr
      obtain ⟨ls, hls⟩ := ih (fun x hx => hall x (List.mem_cons.mpr (Or.inr hx)))
      refine ⟨("• " ++ r.task ++ " — " ++ fmtReminderTime dt) :: ls, ?_⟩
      simp only [fmtRows, hdt, hls]

/-- On a well-formed store the list-reminders branch cannot raise. -/
theorem listRemindersExc_isOk (s : Store) (hwf : storeWF s = true) :
    ∃ r, listRemindersExc s = .ok r := by
  have hall : ∀ r ∈ getPendingReminders s, (parseIso r.remind_at.toList).isSome = true := by
    intro r hrmem
    have hmem : r ∈ s.reminders :=
      List.mem_filter.mp (mem_sortByRemindAt hrmem) |>.1
    exact List.all_eq_true.mp hwf r hmem
  obtain ⟨ls, hls⟩ := fmtRows_isOk _ hall
  cases hemp : (getPendingReminders s).isEmpty with
  | true =>
      exact ⟨"You have no pending reminders.", by simp [listRemindersExc, hemp]⟩
  | false =>
      exact ⟨"Your reminders:\n" ++ "\n".intercalate ls,
        by simp [listRemindersExc, hemp, hls]⟩

/-- An if-then-else of two normally-returning router results returns
normally. -/
theorem isOk_ite (c : Prop) [Decidable c] (a b : RouterResult)
    (ha : a.isOk = true) (hb : b.isOk = true) : (if c then a else b).isOk = true := by
  split
  · exact ha
  · exact hb

/-- Tail stages of the router past the news check never raise. -/
theorem stageNews_isOk (env : Env) (s : Store) (t : List Char) :
    (stageNews env s t).isOk = true := by
  unfold stageNews
  split <;> rfl

/-- Tail stages of the router past the search check never raise. -/
theorem stageSearch_isOk (env : Env) (s : Store) (t : List Char) :
    (stageSearch env s t).isOk = true := by
  unfold stageSearch
  split
  · rfl
  · exact stageNews_isOk env s t

/-- Tail stages of the router past the `what_is` check never raise. -/
theorem stageWhatIs_isOk (env : Env) (s : Store) (t : List Char) :
    (stageWhatIs env s t).isOk = true := by
  unfold stageWhatIs
  split
  · rfl
  · exact stageSearch_isOk env s t

/-- Tail stages of the router past the weather check never raise. -/
theorem stageWeather_isOk (env : Env) (s : Store) (t : List Char) :
    (stageWeather env s t).isOk = true := by
  unfold stageWeather
  split
  · rfl
  · exact stageWhatIs_isOk env s t

/-- Tail stages of the router past the calculator never raise. -/
theorem stageCalc_isOk (env : Env) (s : Store) (t : List Char) :
    (stageCalc env s t).isOk = true := by
  unfold stageCalc
  split
  · rfl
  · exact stageWeather_isOk env s t

/-- Tail stages of the router past the clear-memory check never raise. -/
theorem stageClearMem_isOk (env : Env) (s : Store) (t : List Char) :
    (stageClearMem env s t).isOk = true := by
  unfold stageClearMem
  split
  · rfl
  · exact stageCalc_isOk env s t

/-- Tail stages of the router past the recall check never raise. -/
theorem stageRecall_isOk (env : Env) (s : Store) (t : List Char) :
    (stageRecall env s t).isOk = true := by
  unfold stageRecall
  split
  · rfl
  · exact stageClearMem_isOk env s t

/-- Tail stages of the router past the remember check never raise. -/
theorem stageRemember_isOk (env : Env) (s : Store) (t : List Char) :
    (stageRemember env s t).isOk = true := by
  unfold stageRemember
  split
  · rfl
  · exact stageRecall_isOk env s t

/-- With a well-formed store, the stages from the list-reminders check on
never raise. -/
theorem stageListRem_isOk (env : Env) (s : Store) (t : List Char)
    (hwf : storeWF s = true) : (stageListRem env s t).isOk = true := by
  obtain ⟨rL, hpL⟩ := listRemindersExc_isOk s hwf
  unfold stageListRem
  split
  · rw [hpL]
    rfl
  · exact stageRemember_isOk env s t

/-- With a well-formed store and admissible reminder parses, the stages from
the reminder-creation check on never raise. -/
theorem stageRemind_isOk (env : Env) (s : Store) (t : List Char)
    (hwf : storeWF s = true) (hok : remindArgsOk t = true) :
    (stageRemind env s t).isOk = true := by
  obtain ⟨pR, hpR⟩ := handleRemind_isOk env s t hok
  unfold stageRemind
  split
  · rw [hpR]
    rfl
  · exact stageListRem_isOk env s t hwf

/-- Totality of the close-app stage and everything after it. -/
theorem stageClose_isOk (env : Env) (s : Store) (t : List Char)
    (hwf : storeWF s = true) (hok : remindArgsOk t = true) :
    (stageClose env s t).isOk = true := by
  unfold stageClose
  split
  · split
    · rfl
    · exact stageRemind_isOk env s t hwf hok
  · exact stageRemind_isOk env s t hwf hok

/-- Totality of the open-app stage and everything after it. -/
theorem stageOpen_isOk (env : Env) (s : Store) (t : List Char)
    (hwf : storeWF s = true) (hok : remindArgsOk t = true) :
    (stageOpen env s t).isOk = true := by
  unfold stageOpen
  split
  · split
    · rfl
    · exact stageClose_isOk env s t hwf hok
  · exact stageClose_isOk env s t hwf hok

/-- Totality of the open-folder stage and everything after it. -/
theorem stageFolder_isOk (env : Env) (s : Store) (t : List Char)
    (hwf : storeWF s = true) (hok : remindArgsOk t = true) :
    (stageFolder env s t).isOk = true := by
  unfold stageFolder
  split
  · split
    · rfl
    · exact stageOpen_isOk env s t hwf hok
  · exact stageOpen_isOk env s t hwf hok

/-- C3 (amended): the router is total except for the one uncaught
`ValueError` in the reminder branch — for every input whose reminder parse
(if any) yields a legal time of day, and every store whose `remind_at`
values parse, `process` returns normally.  In particular an unmatched or
unconfigured name never raises: those inputs fall through to later intents
or the catch-all lookup. -/
theorem c3_router_total_unless_bad_time (env : Env) (s : Store) (text : String)
    (hwf : storeWF s = true)
    (hok : remindArgsOk (pyNorm text.toList) = true) :
    ∃ r, process env s text = .ok r := by
  suffices hOk : (process env s text).isOk = true by
    cases hp : process env s text with
    | ok r => exact ⟨r, rfl⟩
    | error e => rw [hp] at hOk; exact Bool.noConfusion hOk
  unfold process processOn
  exact isOk_ite _ _ _ rfl (isOk_ite _ _ _ rfl (isOk_ite _ _ _ rfl (isOk_ite _ _ _ rfl
    (isOk_ite _ _ _ rfl (isOk_ite _ _ _ rfl (isOk_ite _ _ _ rfl (isOk_ite _ _ _ rfl
    (isOk_ite _ _ _ rfl (isOk_ite _ _ _ rfl (isOk_ite _ _ _ rfl (isOk_ite _ _ _ rfl
    (isOk_ite _ _ _ rfl (isOk_ite _ _ _ rfl (isOk_ite _ _ _ rfl (isOk_ite _ _ _ rfl
    (stageFolder_isOk env s (pyNorm text.toList) hwf hok))))))))))))))))

/-- Witness for the amended C3: an open request for an unconfigured
application falls through and answers normally. -/
theorem c3_router_total_unless_bad_time_witness :
    storeWF Store.empty = true ∧
    remindArgsOk (pyNorm "open the pod bay doors".toList) = true ∧
    ∃ r, process env0 Store.empty "open the pod bay doors" = .ok r :=
  ⟨by decide, by decide,
    c3_router_total_unless_bad_time env0 Store.empty "open the pod bay doors"
      (by decide) (by decide)⟩

/-- Counterexample to C3 as stated: on `"remind me to test at 99"` the task
and time patterns both match, the parsed hour 99 is passed to
`datetime.replace`, and the resulting `ValueError` propagates out of
`process`. -/
theorem c3_counterexample_valueError :
    process env0 Store.empty "remind me to test at 99" = .error PyError.valueError := by
  rfl

/-- C6: after stripping the recognised prefixes, an input whose remainder
contains any character outside digits, whitespace and `+ - * / ^ ( ) .` is
rejected by the calculator (no match, so routing falls through) no matter
how `eval` would behave; a non-empty remainder inside the class is handed —
with `^` translated to `**` — to the sandboxed `eval`, whose result is
reported inline as `The answer is _. ` and whose fault (`none`) becomes a
fall-through instead of an exception. -/
theorem c6_calculator_filter_and_fallthrough (env : Env) (t : List Char) :
    ((pyStrip (subRemovePhrases calcPrefixes t)).all isCalcChar = false →
      tryCalculate env t = none) ∧
    (pyStrip (subRemovePhrases calcPrefixes t) ≠ [] →
      (pyStrip (subRemovePhrases calcPrefixes t)).all isCalcChar = true →
      tryCalculate env t =
        (env.pyEval (String.mk (caretFix (pyStrip (subRemovePhrases calcPrefixes t))))).map
          (fun r => "The answer is " ++ r ++ ".")) := by
  constructor
  · intro hbad
    unfold tryCalculate
    rw [if_neg]
    intro hc
    rw [hbad] at hc
    simp at hc
  · intro hne hgood
    unfold tryCalculate
    rw [if_pos]
    rw [hgood]
    simp only [Bool.and_true]
    cases hx : (pyStrip (subRemovePhrases calcPrefixes t)).isEmpty with
    | true => exact absurd (List.isEmpty_iff.mp hx) hne
    | false => rfl

/-- Witness for C6: `"calculate 2 + 2"` is answered inline while
`"calculate rm -rf"` is rejected without evaluation. -/
theorem c6_calculator_filter_and_fallthrough_witness :
    (pyStrip (subRemovePhrases calcPrefixes (pyNorm "calculate 2 + 2".toList))).all isCalcChar = true ∧
    tryCalculate env0 (pyNorm "calculate 2 + 2".toList) = some "The answer is 4." ∧
    (pyStrip (subRemovePhrases calcPrefixes (pyNorm "calculate rm -rf".toList))).all isCalcChar = false ∧
    tryCalculate env0 (pyNorm "calculate rm -rf".toList) = none :=
  ⟨by decide,
   ((c6_calculator_filter_and_fallthrough env0 (pyNorm "calculate 2 + 2".toList)).2
      (by decide) (by decide)).trans (by decide),
   by decide,
   (c6_calculator_filter_and_fallthrough env0 (pyNorm "calculate rm -rf".toList)).1 (by decide)⟩

/-- Membership across the length-descending insertion. -/
theorem mem_insertByLenDesc {x y : String} {l : List String} :
    y ∈ insertByLenDesc x l ↔ y = x ∨ y ∈ l := by
  induction l with
  | nil => simp [insertByLenDesc]
  | cons z zs ih =>
      unfold insertByLenDesc
      split
      · rw [List.mem_cons, ih, List.mem_cons]
        tauto
      · exact List.mem_cons

/-- Membership across the length-descending sort. -/
theorem mem_sortByLenDesc {y : String} {l : List String} :
    y ∈ sortByLenDesc l ↔ y ∈ l := by
  induction l with
  | nil => simp [sortByLenDesc]
  | cons z zs ih =>
      unfold sortByLenDesc
      rw [mem_insertByLenDesc]
      simp [ih]

/-- Insertion preserves the length-descending invariant. -/
theorem pairwise_insertByLenDesc (x : String) (l : List String)
    (h : l.Pairwise (fun a b => b.length ≤ a.length)) :
    (insertByLenDesc x l).Pairwise (fun a b => b.length ≤ a.length) := by
  induction l with
  | nil => simp [insertByLenDesc]
  | cons z zs ih =>
      rw [List.pairwise_cons] at h
      unfold insertByLenDesc
      split
      · rename_i hlt
        rw [List.pairwise_cons]
        constructor
        · intro a ha
          rcases mem_insertByLenDesc.mp ha with he | hm
          · subst he
            omega
          · exact h.1 a hm
        · exact ih h.2
      · rename_i hge
        rw [List.pairwise_cons]
        constructor
        · intro a ha
          rcases List.mem_cons.mp ha with he | hm
          · subst he
            omega
          · have := h.1 a hm
            omega
        · exact List.pairwise_cons.mpr h
      
/-- The candidate list of `sorted(names, key=len, reverse=True)` is ordered
by non-increasing length. -/
theorem pairwise_sortByLenDesc (l : List String) :
    (sortByLenDesc l).Pairwise (fun a b => b.length ≤ a.length) := by
  induction l with
  | nil => simp [sortByLenDesc]
  | cons z zs ih => exact pairwise_insertByLenDesc z (sortByLenDesc zs) ih

/-- On a length-descending list, `find?` returns a match of maximal length
among all matches. -/
theorem find?_longest {l : List String} {t : List Char} {n : String}
    (hs : l.Pairwise (fun a b => b.length ≤ a.length))
    (h : l.find? (fun x => containsSub x.toList t) = some n) :
    containsSub n.toList t = true ∧ n ∈ l ∧
      ∀ m ∈ l, containsSub m.toList t = true → m.length ≤ n.length := by
  induction l with
  | nil => simp at h
  | cons y ys ih =>
      rw [List.pairwise_cons] at hs
      by_cases hy : containsSub y.toList t = true
      · simp only [List.find?, hy] at h
        obtain rfl : y = n := by injection h
        refine ⟨hy, List.mem_cons_self _ _, ?_⟩
        intro m hm _
        rcases List.mem_cons.mp hm with he | hmem
        · subst he
          exact le_refl _
        · exact hs.1 m hmem
      · have hy' : containsSub y.toList t = false := Bool.not_eq_true _ |>.mp hy
        simp only [List.find?, hy'] at h
        obtain ⟨hc, hmem, hall⟩ := ih hs.2 h
        refine ⟨hc, List.mem_cons.mpr (Or.inr hmem), ?_⟩
        intro m hm hcm
        rcases List.mem_cons.mp hm with he | hmem2
        · subst he
          exact absurd hcm hy
        · exact hall m hmem2 hcm

/-- Characterisation of a successful longest-match lookup over a configured
name table. -/
theorem findName_spec {names : List String} {t : List Char} {n : String}
    (h : findName names t = some n) :
    containsSub n.toList t = true ∧ n ∈ names ∧
      ∀ m ∈ names, containsSub m.toList t = true → m.length ≤ n.length := by
  obtain ⟨hc, hmem, hall⟩ := find?_longest (pairwise_sortByLenDesc names) h
  exact ⟨hc, mem_sortByLenDesc.mp hmem,
    fun m hm hcm => hall m (mem_sortByLenDesc.mpr hm) hcm⟩

/-- A name table with no name occurring in the text yields no match. -/
theorem findName_none {names : List String} {t : List Char}
    (h : ∀ m ∈ names, containsSub m.toList t = false) :
    findName names t = none := by
  unfold findName
  rw [List.find?_eq_none]
  intro x hx
  simp only [Bool.not_eq_true]
  exact h x (mem_sortByLenDesc.mp hx)

/-- C7: each of the open-app, close-app and open-folder handlers selects the
first configured name, in length-descending (longest-first) candidate
order, occurring as a substring of the input — so any selected name is at
least as long as every other configured name that also occurs — and when no
configured name occurs the handler reports no match, making the stage fall
through to the next intent rather than erroring. -/
theorem c7_longest_match_first (env : Env) (s : Store) (t : List Char) :
    (∀ r, handleOpen env t = some r →
      ∃ n, findName appNames t = some n ∧ r = env.openApp n ∧
        containsSub n.toList t = true ∧ n ∈ appNames ∧
        ∀ m ∈ appNames, containsSub m.toList t = true → m.length ≤ n.length) ∧
    (∀ r, handleClose env t = some r →
      ∃ n, findName processNames t = some n ∧ r = env.closeApp n ∧
        containsSub n.toList t = true ∧ n ∈ processNames ∧
        ∀ m ∈ processNames, containsSub m.toList t = true → m.length ≤ n.length) ∧
    (∀ r, handleFolder env t = some r →
      ∃ n, findName folderNames t = some n ∧ r = env.openFolder n ∧
        containsSub n.toList t = true ∧ n ∈ folderNames ∧
        ∀ m ∈ folderNames, containsSub m.toList t = true → m.length ≤ n.length) ∧
    ((∀ m ∈ appNames, containsSub m.toList t = false) →
      handleOpen env t = none ∧ stageOpen env s t = stageClose env s t) ∧
    ((∀ m ∈ processNames, containsSub m.toList t = false) →
      handleClose env t = none ∧ stageClose env s t = stageRemind env s t) ∧
    ((∀ m ∈ folderNames, containsSub m.toList t = false) →
      handleFolder env t = none ∧ stageFolder env s t = stageOpen env s t) := by
  refine ⟨?_, ?_, ?_, ?_, ?_, ?_⟩
  · intro r hr
    unfold handleOpen at hr
    cases hf : findName appNames t with
    | none => rw [hf] at hr; cases hr
    | some n =>
        rw [hf] at hr
        obtain ⟨hc, hmem, hall⟩ := findName_spec hf
        exact ⟨n, rfl, by injection hr with h2; exact h2.symm, hc, hmem, hall⟩
  · intro r hr
    unfold handleClose at hr
    cases hf : findName processNames t with
    | none => rw [hf] at hr; cases hr
    | some n =>
        rw [hf] at hr
        obtain ⟨hc, hmem, hall⟩ := findName_spec hf
        exact ⟨n, rfl, by injection hr with h2; exact h2.symm, hc, hmem, hall⟩
  · intro r hr
    unfold handleFolder at hr
    cases hf : findName folderNames t with
    | none => rw [hf] at hr; cases hr
    | some n =>
        rw [hf] at hr
        obtain ⟨hc, hmem, hall⟩ := findName_spec hf
        exact ⟨n, rfl, by injection hr with h2; exact h2.symm, hc, hmem, hall⟩
  · intro hnone
    have h0 : handleOpen env t = none := by
      unfold handleOpen
      rw [findName_none hnone]
      rfl
    refine ⟨h0, ?_⟩
    unfold stageOpen
    rw [h0]
    split <;> rfl
  · intro hnone
    have h0 : handleClose env t = none := by
      unfold handleClose
      rw [findName_none hnone]
      rfl
    refine ⟨h0, ?_⟩
    unfold stageClose
    rw [h0]
    split <;> rfl
  · intro hnone
    have h0 : handleFolder env t = none := by
      unfold handleFolder
      rw [findName_none hnone]
      rfl
    refine ⟨h0, ?_⟩
    unfold stageFolder
    rw [h0]
    split <;> rfl

/-- Witness for C7: `"open visual studio code"` resolves to the longest
configured name `"visual studio code"`, never the shorter overlapping
`"vs code"` or `"vscode"`. -/
theorem c7_longest_match_first_witness :
    handleOpen env0 (pyNorm "open visual studio code".toList) =
      some "Opening visual studio code." ∧
    (∃ n, findName appNames (pyNorm "open visual studio code".toList) = some n ∧
      "Opening visual studio code." = env0.openApp n ∧
      containsSub n.toList (pyNorm "open visual studio code".toList) = true ∧
      n ∈ appNames ∧
      ∀ m ∈ appNames, containsSub m.toList (pyNorm "open visual studio code".toList) = true →
        m.length ≤ n.length) :=
  ⟨by decide,
   (c7_longest_match_first env0 Store.empty (pyNorm "open visual studio code".toList)).1
     "Opening visual studio code." (by decide)⟩

/-- C8: `get_due_reminders` returns exactly the stored reminders that are
not yet notified and whose `remind_at` is at most the query instant (SQLite
TEXT comparison): it never returns a notified reminder, and never one with
`remind_at` after `now`. -/
theorem c8_due_exactly_unnotified_past (s : Store) (nowIso : String) (r : Reminder) :
    r ∈ getDueReminders s nowIso ↔
      r ∈ s.reminders ∧ r.notified = false ∧ sqlLe r.remind_at nowIso = true := by
  unfold getDueReminders
  rw [List.mem_filter]
  simp [Bool.and_eq_true, Bool.not_eq_true']

/-- Witness for C8: the single reminder of `dueStore` is due at
`nowIso0`. -/
theorem c8_due_exactly_unnotified_past_witness :
    (⟨1, "call mom", "2025-03-10T08:00:00", false⟩ : Reminder) ∈ getDueReminders dueStore nowIso0 :=
  (c8_due_exactly_unnotified_past dueStore nowIso0 _).mpr ⟨by decide, rfl, by decide⟩

/-- Marking leaves the multiset of reminder ids unchanged. -/
theorem map_id_markNotified (l : List Reminder) (i : Nat) :
    (l.map (fun r => if r.id = i then { r with notified := true } else r)).map
        (fun r => r.id) =
      l.map (fun r => r.id) := by
  induction l with
  | nil => rfl
  | cons r rs ih =>
      simp only [List.map_cons, ih, List.cons.injEq, and_true]
      split <;> rfl

/-- Reminder ids of the store are unchanged by `mark_notified`. -/
theorem markNotified_ids (s : Store) (i : Nat) :
    (markNotified s i).reminders.map (fun r => r.id) = s.reminders.map (fun r => r.id) := by
  unfold markNotified
  exact map_id_markNotified s.reminders i

/-- Reminder ids of the store are unchanged by marking a whole batch. -/
theorem foldl_markNotified_ids (L : List Reminder) (s : Store) :
    ((L.foldl (fun acc r => markNotified acc r.id) s).reminders.map (fun r => r.id)) =
      s.reminders.map (fun r => r.id) := by
  induction L generalizing s with
  | nil => rfl
  | cons r rs ih => rw [List.foldl_cons, ih, markNotified_ids]

/-- Every row with a given id is notified after `mark_notified` of that
id. -/
theorem notifiedIn_markNotified_self (s : Store) (i : Nat) :
    ∀ r ∈ (markNotified s i).reminders, r.id = i → r.notified = true := by
  intro r hr hid
  unfold markNotified at hr
  simp only [List.mem_map] at hr
  obtain ⟨r0, _, hr0⟩ := hr
  by_cases h0 : r0.id = i
  · rw [if_pos h0] at hr0
    rw [← hr0]
  · rw [if_neg h0] at hr0
    rw [← hr0] at hid
    exact absurd hid h0

/-- Once every row with id `i` is notified, `mark_notified` of any id keeps
it so. -/
theorem notifiedIn_markNotified_mono (s : Store) (i j : Nat)
    (h : ∀ r ∈ s.reminders, r.id = i → r.notified = true) :
    ∀ r ∈ (markNotified s j).reminders, r.id = i → r.notified = true := by
  intro r hr hid
  unfold markNotified at hr
  simp only [List.mem_map] at hr
  obtain ⟨r0, hr0mem, hr0⟩ := hr
  by_cases h0 : r0.id = j
  · rw [if_pos h0] at hr0
    rw [← hr0]
  · rw [if_neg h0] at hr0
    subst hr0
    exact h r0 hr0mem hid

/-- Batch marking keeps an already fully-notified id notified. -/
theorem notifiedIn_foldl_mono (L : List Reminder) (s : Store) (i : Nat)
    (h : ∀ r ∈ s.reminders, r.id = i → r.notified = true) :
    ∀ r ∈ (L.foldl (fun acc r => markNotified acc r.id) s).reminders, r.id = i → r.notified = true := by
  induction L generalizing s with
  | nil => exact h
  | cons x xs ih =>
      rw [List.foldl_cons]
      exact ih (markNotified s x.id) (notifiedIn_markNotified_mono s i x.id h)

/-- After a cycle's batch marking, every id fetched in that cycle is fully
notified. -/
theorem notifiedIn_after_batch (s : Store) (nowIso : String) (r0 : Reminder)
    (h0 : r0 ∈ getDueReminders s nowIso) :
    ∀ r ∈ ((getDueReminders s nowIso).foldl (fun acc r => markNotified acc r.id) s).reminders,
      r.id = r0.id → r.notified = true := by
  have hgen : ∀ (L : List Reminder) (s' : Store), r0 ∈ L →
      ∀ r ∈ (L.foldl (fun acc r => markNotified acc r.id) s').reminders,
        r.id = r0.id → r.notified = true := by
    intro L
    induction L with
    | nil => intro s' hmem; cases hmem
    | cons x xs ih =>
        intro s' hmem
        rw [List.foldl_cons]
        rcases List.mem_cons.mp hmem with he | hm
        · subst he
          exact notifiedIn_foldl_mono xs (markNotified s' r0.id) r0.id
            (notifiedIn_markNotified_self s' r0.id)
        · exact ih (markNotified s' x.id) hm
  exact hgen (getDueReminders s nowIso) s h0

/-- A fully-notified id is never fetched again, in any number of later
cycles. -/
theorem id_not_delivered_when_notified (nowIso : String) (n : Nat) (s : Store) (i : Nat)
    (h : ∀ r ∈ s.reminders, r.id = i → r.notified = true) :
    i ∉ (runCycles nowIso n s).2 := by
  induction n generalizing s with
  | zero => simp [runCycles]
  | succ m ih =>
      unfold runCycles
      intro hmem
      rcases List.mem_append.mp hmem with hdue | hrest
      · obtain ⟨r, hr, hrid⟩ := List.mem_map.mp hdue
        have hfil := List.mem_filter.mp hr
        have hnot := h r hfil.1 hrid
        simp only [Bool.and_eq_true, Bool.not_eq_true'] at hfil
        rw [hfil.2.1] at hnot
        cases hnot
      · exact ih _ (notifiedIn_foldl_mono _ s i h) hrest

/-- C4 (amended): each store operation is individually serialised, but the
fetch-deliver-mark sequence is not atomic, so two concurrent pollers can
deliver one reminder twice (see the counterexample); the single scheduler
thread the program actually starts delivers every reminder at most once
across any number of polling cycles. -/
theorem c4_single_thread_at_most_once (nowIso : String) (n : Nat) (s : Store)
    (hids : (s.reminders.map (fun r => r.id)).Nodup) :
    ((runCycles nowIso n s).2).Nodup := by
  induction n generalizing s with
  | zero => simp [runCycles]
  | succ m ih =>
      unfold runCycles
      rw [List.nodup_append]
      refine ⟨?_, ?_, ?_⟩
      · have hsub : List.Sublist ((getDueReminders s nowIso).map (fun r => r.id))
            (s.reminders.map (fun r => r.id)) :=
          (List.filter_sublist _).map _
        exact hids.sublist hsub
      · exact ih _ (by rw [foldl_markNotified_ids]; exact hids)
      · intro i hdue hrest
        obtain ⟨r0, hr0, hr0id⟩ := List.mem_map.mp hdue
        subst hr0id
        exact id_not_delivered_when_notified nowIso m _ r0.id
          (notifiedIn_after_batch s nowIso r0 hr0) hrest

/-- Witness for the amended C4: three polling cycles over the one-reminder
store deliver it exactly once. -/
theorem c4_single_thread_at_most_once_witness :
    (dueStore.reminders.map (fun r => r.id)).Nodup ∧
    ((runCycles nowIso0 3 dueStore).2).Nodup ∧
    (runCycles nowIso0 3 dueStore).2 = [1] :=
  ⟨by decide, c4_single_thread_at_most_once nowIso0 3 dueStore (by decide), by decide⟩

/-- Counterexample to C4 as stated: the interleaving `dupTrace` is a valid
execution of two concurrent polling cycles (each step is one lock-protected
store operation), both threads fetch the same due reminder and both deliver
it, with no `mark_notified` anywhere before the second delivery. -/
theorem c4_counterexample_duplicate_delivery :
    (runTrace nowIso0 dueStore TState.start TState.start dupTrace).isSome = true ∧
    deliveryCount dupTrace 1 = 2 ∧
    deliveryCount (dupTrace.take 4) 1 = 2 ∧
    (dupTrace.take 4).all (fun x => !isMark x.2) = true := by
  refine ⟨?_, ?_, ?_, ?_⟩ <;> decide

/-- Counterexample to C5 as stated: with the later-scheduled reminder
created first, `get_due_reminders` (whose SQL has no `ORDER BY`) returns the
due rows in rowid order — here strictly descending `remind_at` — and the
scheduler cycle delivers them in that same order. -/
theorem c5_counterexample_not_sorted_by_remind_at :
    getDueReminders outOfOrderStore nowIso1 =
      [⟨1, "walk dog", "2025-03-12T08:00:00", false⟩,
       ⟨2, "pay rent", "2025-03-11T05:00:00", false⟩] ∧
    sqlLe "2025-03-12T08:00:00" "2025-03-11T05:00:00" = false ∧
    (runCycles nowIso1 1 outOfOrderStore).2 = [1, 2] := by
  refine ⟨?_, ?_, ?_⟩ <;> decide

/-- C5 (amended): per cycle the due reminders are fetched, delivered and
marked in the store's rowid (insertion) order — ascending id when ids were
assigned monotonically — not necessarily ascending `remind_at`; only
`get_pending_reminders` sorts by `remind_at`. -/
theorem c5_due_processed_in_rowid_order (s : Store) (nowIso : String)
    (hsorted : s.reminders.Pairwise (fun a b => a.id ≤ b.id)) :
    List.Sublist (getDueReminders s nowIso) s.reminders ∧
    (getDueReminders s nowIso).Pairwise (fun a b => a.id ≤ b.id) ∧
    (runCycles nowIso 1 s).2 = (getDueReminders s nowIso).map (fun r => r.id) := by
  refine ⟨List.filter_sublist _, ?_, ?_⟩
  · exact hsorted.sublist (List.filter_sublist _)
  · simp [runCycles]

/-- Witness for the amended C5: the out-of-order store is fetched in id
order. -/
theorem c5_due_processed_in_rowid_order_witness :
    outOfOrderStore.reminders.Pairwise (fun a b => a.id ≤ b.id) ∧
    (getDueReminders outOfOrderStore nowIso1).Pairwise (fun a b => a.id ≤ b.id) :=
  ⟨by decide, (c5_due_processed_in_rowid_order outOfOrderStore nowIso1 (by decide)).2.1⟩

/-- The open-folder stage falls through when its guard does not fire or no
folder name occurs. -/
theorem stageFolder_passes (env : Env) (s : Store) (t : List Char)
    (h : (openFolderSearch t && (findName folderNames t).isSome) = false) :
    stageFolder env s t = stageOpen env s t := by
  unfold stageFolder handleFolder
  rcases Bool.and_eq_false_iff.mp h with hg | hf
  · rw [hg]
    simp
  · cases hfn : findName folderNames t with
    | none => split <;> simp [hfn]
    | some v => rw [hfn] at hf; cases hf

/-- The open-app stage falls through when its guard does not fire or no app
name occurs. -/
theorem stageOpen_passes (env : Env) (s : Store) (t : List Char)
    (h : (openAppSearch t && (findName appNames t).isSome) = false) :
    stageOpen env s t = stageClose env s t := by
  unfold stageOpen handleOpen
  rcases Bool.and_eq_false_iff.mp h with hg | hf
  · rw [hg]
    simp
  · cases hfn : findName appNames t with
    | none => split <;> simp [hfn]
    | some v => rw [hfn] at hf; cases hf

/-- The close-app stage falls through when its guard does not fire or no
process name occurs. -/
theorem stageClose_passes (env : Env) (s : Store) (t : List Char)
    (h : (closeAppSearch t && (findName processNames t).isSome) = false) :
    stageClose env s t = stageRemind env s t := by
  unfold stageClose handleClose
  rcases Bool.and_eq_false_iff.mp h with hg | hf
  · rw [hg]
    simp
  · cases hfn : findName processNames t with
    | none => split <;> simp [hfn]
    | some v => rw [hfn] at hf; cases hf

/-- When no earlier intent fires, `process` reaches the reminder stage. -/
theorem process_reaches_remind (env : Env) (s : Store) (text : String)
    (hpre : noIntentBeforeRemind (pyNorm text.toList) = true)
    (hne : (pyNorm text.toList).isEmpty = false) :
    process env s text = stageRemind env s (pyNorm text.toList) := by
  unfold noIntentBeforeRemind at hpre
  simp only [Bool.and_eq_true, Bool.not_eq_true'] at hpre
  obtain ⟨⟨⟨⟨⟨⟨⟨⟨⟨⟨⟨⟨⟨⟨⟨⟨⟨h1, h2⟩, h3⟩, h4⟩, h5⟩, h6⟩, h7⟩, h8⟩, h9⟩, h10⟩,
    h11⟩, h12⟩, h13⟩, h14⟩, h15⟩, hF⟩, hO⟩, hC⟩ := hpre
  unfold process processOn
  rw [if_neg (by rw [hne]; exact Bool.noConfusion),
    if_neg (by rw [h1]; exact Bool.noConfusion),
    if_neg (by rw [h2]; exact Bool.noConfusion),
    if_neg (by rw [h3]; exact Bool.noConfusion),
    if_neg (by rw [h4]; exact Bool.noConfusion),
    if_neg (by rw [h5]; exact Bool.noConfusion),
    if_neg (by rw [h6]; exact Bool.noConfusion),
    if_neg (by rw [h7]; exact Bool.noConfusion),
    if_neg (by rw [h8]; exact Bool.noConfusion),
    if_neg (by rw [h9]; exact Bool.noConfusion),
    if_neg (by rw [h10]; exact Bool.noConfusion),
    if_neg (by rw [h11]; exact Bool.noConfusion),
    if_neg (by rw [h12]; exact Bool.noConfusion),
    if_neg (by rw [h13]; exact Bool.noConfusion),
    if_neg (by rw [h14]; exact Bool.noConfusion),
    if_neg (by rw [h15]; exact Bool.noConfusion)]
  rw [stageFolder_passes env s _ hF, stageOpen_passes env s _ hO,
    stageClose_passes env s _ hC]

/-- C9: on a reminder-intent input that no earlier intent captures, a
missing task phrase yields the task clarifying question, and a parsed task
with a missing time yields the (different) time clarifying question — in
both cases with `terminate = false` and the store unchanged; a reminder
is created only when both parse. -/
theorem c9_clarifying_questions_no_mutation (env : Env) (s : Store) (text : String)
    (hpre : noIntentBeforeRemind (pyNorm text.toList) = true)
    (hrem : remindSearch (pyNorm text.toList) = true) :
    (searchTask (pyNorm text.toList) = none →
      process env s text =
        .ok (("What should I remind you about, and at what time?", false), s)) ∧
    (∀ taskRaw, searchTask (pyNorm text.toList) = some taskRaw →
      searchTime (pyNorm text.toList) = none →
      process env s text =
        .ok (("When should I remind you to '" ++ String.mk (pyStrip taskRaw) ++
          "'? Please say a time like 'at 8 pm'.", false), s)) ∧
    (∀ taskRaw : List Char, "What should I remind you about, and at what time?" ≠
      "When should I remind you to '" ++ String.mk (pyStrip taskRaw) ++
        "'? Please say a time like 'at 8 pm'.") := by
  have hne : (pyNorm text.toList).isEmpty = false := by
    cases hx : pyNorm text.toList with
    | nil => rw [hx] at hrem; cases hrem
    | cons a l => rfl
  have hreach := process_reaches_remind env s text hpre hne
  refine ⟨?_, ?_, ?_⟩
  · intro hT
    rw [hreach]
    unfold stageRemind
    rw [hrem]
    simp only [if_true]
    unfold handleRemind
    rw [hT]
  · intro taskRaw hT hTime
    rw [hreach]
    unfold stageRemind
    rw [hrem]
    simp only [if_true]
    unfold handleRemind
    rw [hT, hTime]
  · intro taskRaw h
    have h2 := congrArg (fun q : String => q.data.take 4) h
    simp only [String.data_append] at h2
    rw [List.take_append_of_le_length (by simp)] at h2
    rw [List.take_append_of_le_length (by decide)] at h2
    exact absurd h2 (by decide)

/-- Witness for C9: `"remind me about the dog"` (no task phrase) gets the
task question; `"remind me to wash up"` (no time) gets the time question;
in both runs the store is unchanged. -/
theorem c9_clarifying_questions_no_mutation_witness :
    noIntentBeforeRemind (pyNorm "remind me about the dog".toList) = true ∧
    process env0 Store.empty "remind me about the dog" =
      .ok (("What should I remind you about, and at what time?", false), Store.empty) ∧
    process env0 Store.empty "remind me to wash up" =
      .ok (("When should I remind you to 'wash up'? Please say a time like 'at 8 pm'.", false),
        Store.empty) :=
  ⟨by decide,
   (c9_clarifying_questions_no_mutation env0 Store.empty "remind me about the dog"
     (by decide) (by decide)).1 (by decide),
   (c9_clarifying_questions_no_mutation env0 Store.empty "remind me to wash up"
     (by decide) (by decide)).2.1 "wash up".toList (by decide) (by decide)⟩

/-- Code point of a digit character. -/
theorem digitChar_toNat {n : Nat} (h : n ≤ 9) : (digitChar n).toNat = 48 + n := by
  interval_cases n <;> rfl

/-- A bounded value renders as an ASCII digit. -/
theorem digitChar_isDigit {n : Nat} (h : n ≤ 9) : (digitChar n).isDigit = true := by
  interval_cases n <;> rfl

/-- Byte-wise comparison of two-digit zero-padded fields agrees with the
numeric comparison, continuing with the tails on a tie. -/
theorem charListLe_pad2_append {a b : Nat} (ha : a ≤ 99) (hb : b ≤ 99) (u v : List Char) :
    charListLe (pad2 a ++ u) (pad2 b ++ v) =
      (if a < b then true else if b < a then false else charListLe u v) := by
  have h1 : (digitChar (a / 10)).toNat = 48 + a / 10 := digitChar_toNat (by omega)
  have h2 : (digitChar (a % 10)).toNat = 48 + a % 10 := digitChar_toNat (by omega)
  have h3 : (digitChar (b / 10)).toNat = 48 + b / 10 := digitChar_toNat (by omega)
  have h4 : (digitChar (b % 10)).toNat = 48 + b % 10 := digitChar_toNat (by omega)
  simp only [pad2, List.cons_append, List.nil_append, charListLe, h1, h2, h3, h4]
  split_ifs <;> first | rfl | omega

/-- Byte-wise comparison of trailing two-digit fields is the numeric
comparison. -/
theorem charListLe_pad2_last {a b : Nat} (ha : a ≤ 99) (hb : b ≤ 99) :
    charListLe (pad2 a) (pad2 b) = decide (a ≤ b) := by
  have h1 : (digitChar (a / 10)).toNat = 48 + a / 10 := digitChar_toNat (by omega)
  have h2 : (digitChar (a % 10)).toNat = 48 + a % 10 := digitChar_toNat (by omega)
  have h3 : (digitChar (b / 10)).toNat = 48 + b / 10 := digitChar_toNat (by omega)
  have h4 : (digitChar (b % 10)).toNat = 48 + b % 10 := digitChar_toNat (by omega)
  simp only [pad2, charListLe, h1, h2, h3, h4]
  split_ifs <;> first
    | exact (decide_eq_true (by omega)).symm
    | exact (decide_eq_false (by omega)).symm

/-- Byte-wise comparison of four-digit zero-padded fields agrees with the
numeric comparison, continuing with the tails on a tie. -/
theorem charListLe_pad4_append {a b : Nat} (ha : a ≤ 9999) (hb : b ≤ 9999) (u v : List Char) :
    charListLe (pad4 a ++ u) (pad4 b ++ v) =
      (if a < b then true else if b < a then false else charListLe u v) := by
  unfold pad4
  rw [List.append_assoc, List.append_assoc]
  rw [charListLe_pad2_append (by omega) (by omega)]
  rw [charListLe_pad2_append (by omega) (by omega)]
  split_ifs <;> first | rfl | omega

/-- Equal separators step the byte-wise comparison to the tails. -/
theorem charListLe_cons_same (c : Char) (u v : List Char) :
    charListLe (c :: u) (c :: v) = charListLe u v := by
  simp [charListLe]

/-- No Gregorian month is longer than 31 days. -/
theorem daysInMonth_le (y m : Nat) : daysInMonth y m ≤ 31 := by
  unfold daysInMonth
  split <;> first | omega | (split <;> omega)

set_option maxHeartbeats 2000000 in
/-- SQLite's byte-wise comparison of two seconds-precision isoformat strings
computes exactly the chronological comparison of the underlying naive
datetimes (with zero microseconds, as every stored value has). -/
theorem sqlLe_isoString_eq_leb (a b : PyDateTime) (hva : a.valid = true) (hvb : b.valid = true)
    (hua : a.microsecond = 0) (hub : b.microsecond = 0) :
    sqlLe (isoString a) (isoString b) = PyDateTime.leb a b := by
  cases a with
  | mk y1 mo1 d1 h1 mi1 s1 u1 =>
  cases b with
  | mk y2 mo2 d2 h2 mi2 s2 u2 =>
  unfold PyDateTime.valid at hva hvb
  simp only [Bool.and_eq_true, decide_eq_true_eq] at hva hvb
  obtain ⟨⟨⟨⟨⟨⟨⟨⟨⟨hy1a, hy2a⟩, hmo1a⟩, hmo2a⟩, hd1a⟩, hd2a⟩, hha⟩, hmia⟩, hsa⟩, hua'⟩ := hva
  obtain ⟨⟨⟨⟨⟨⟨⟨⟨⟨hy1b, hy2b⟩, hmo1b⟩, hmo2b⟩, hd1b⟩, hd2b⟩, hhb⟩, hmib⟩, hsb⟩, hub'⟩ := hvb
  simp only at hua hub
  subst hua hub
  have hdim1 := daysInMonth_le y1 mo1
  have hdim2 := daysInMonth_le y2 mo2
  show charListLe (isoChars _) (isoChars _) = _
  unfold isoChars
  dsimp only
  rw [@charListLe_pad4_append y1 y2 (by omega) (by omega) _ _]
  rw [charListLe_cons_same]
  rw [@charListLe_pad2_append mo1 mo2 (by omega) (by omega) _ _]
  rw [charListLe_cons_same]
  rw [@charListLe_pad2_append d1 d2 (by omega) (by omega) _ _]
  rw [charListLe_cons_same]
  rw [@charListLe_pad2_append h1 h2 (by omega) (by omega) _ _]
  rw [charListLe_cons_same]
  rw [@charListLe_pad2_append mi1 mi2 (by omega) (by omega) _ _]
  rw [charListLe_cons_same]
  rw [@charListLe_pad2_last s1 s2 (by omega) (by omega)]
  simp only [PyDateTime.leb, PyDateTime.leProp, PyDateTime.ltProp, PyDateTime.mk.injEq,
    lt_self_iff_false, and_false, and_true, or_false]
  split_ifs <;> first
    | exact (decide_eq_true (by omega)).symm
    | exact (decide_eq_false (by omega)).symm
    | (rw [decide_eq_decide]; omega)

/-- Every isoformat rendering of a valid datetime has the fixed
19-character `YYYY-MM-DDTHH:MM:SS` form. -/
theorem isoShape_isoString (dt : PyDateTime) (hv : dt.valid = true) :
    isoShape (isoString dt).toList = true := by
  cases dt with
  | mk y mo d h mi s u =>
  unfold PyDateTime.valid at hv
  simp only [Bool.and_eq_true, decide_eq_true_eq] at hv
  obtain ⟨⟨⟨⟨⟨⟨⟨⟨⟨hy1, hy2⟩, hmo1⟩, hmo2⟩, hd1⟩, hd2⟩, hh⟩, hmi⟩, hs⟩, hu⟩ := hv
  have hdim := daysInMonth_le y mo
  show isoShape (isoChars _) = true
  unfold isoChars pad4 pad2
  dsimp only
  simp only [List.cons_append, List.nil_append, isoShape, Bool.and_eq_true, decide_eq_true_eq]
  repeat' constructor
  all_goals first | rfl | exact digitChar_isDigit (by omega)

/-- C10: `add_reminder` always persists `remind_at` as the seconds-precision
isoformat string (fixed form `YYYY-MM-DDTHH:MM:SS`, no timezone), and on
such values the store's lexicographic TEXT comparisons — the `remind_at <=
now` of `get_due_reminders` and the `ORDER BY remind_at` of
`get_pending_reminders` — agree exactly with chronological order. -/
theorem c10_iso_form_and_lex_order :
    (∀ (s : Store) (task : String) (dt : PyDateTime),
      (addReminder s task dt).reminders =
        s.reminders ++ [⟨s.nextRemId, pyStripStr task, isoString dt, false⟩]) ∧
    (∀ dt : PyDateTime, dt.valid = true → isoShape (isoString dt).toList = true) ∧
    (∀ a b : PyDateTime, a.valid = true → b.valid = true →
      a.microsecond = 0 → b.microsecond = 0 →
      sqlLe (isoString a) (isoString b) = PyDateTime.leb a b) :=
  ⟨fun _ _ _ => rfl, isoShape_isoString, sqlLe_isoString_eq_leb⟩

/-- Witness for C10: two concrete stored instants compare consistently both
ways. -/
theorem c10_iso_form_and_lex_order_witness :
    (⟨2025, 3, 10, 8, 0, 0, 0⟩ : PyDateTime).valid = true ∧
    isoShape (isoString ⟨2025, 3, 10, 8, 0, 0, 0⟩).toList = true ∧
    sqlLe (isoString ⟨2025, 3, 10, 8, 0, 0, 0⟩) (isoString ⟨2025, 3, 11, 5, 30, 0, 0⟩) =
      PyDateTime.leb ⟨2025, 3, 10, 8, 0, 0, 0⟩ ⟨2025, 3, 11, 5, 30, 0, 0⟩ :=
  ⟨by decide,
   c10_iso_form_and_lex_order.2.1 ⟨2025, 3, 10, 8, 0, 0, 0⟩ (by decide),
   c10_iso_form_and_lex_order.2.2 ⟨2025, 3, 10, 8, 0, 0, 0⟩ ⟨2025, 3, 11, 5, 30, 0, 0⟩
     (by decide) (by decide) rfl rfl⟩
